import Mathlib

/-!
Verification of the fleet-hub dispatch engine (command/content publishers,
fleet fan-out, analytics ingestion) against its natural-language
specification.  The TypeScript services are embedded shallowly: JavaScript
`Map` objects become association lists, promises become write-once result
slots, `setTimeout` closures become timer records capturing the inner-map
reference they closed over, and the single-threaded run-to-completion
semantics of Node.js makes each service method one atomic step.
-/

namespace HubMap

variable {κ : Type} {β : Type} [DecidableEq κ]

/-- Lookup in an association list (model of JavaScript `Map.get`). -/
def alookup (k : κ) : List (κ × β) → Option β
  | [] => none
  | (k', v) :: t => if k' = k then some v else alookup k t

/-- Remove every binding of a key (model of `Map.delete`). -/
def aerase (k : κ) : List (κ × β) → List (κ × β)
  | [] => []
  | (k', v) :: t => if k' = k then aerase k t else (k', v) :: aerase k t

/-- Set a binding (model of `Map.set`): the new pair shadows and removes any
old binding of the same key. -/
def aset (k : κ) (v : β) (l : List (κ × β)) : List (κ × β) :=
  (k, v) :: aerase k l

@[simp] theorem alookup_nil (k : κ) : alookup k ([] : List (κ × β)) = none := rfl

@[simp] theorem alookup_cons (k k' : κ) (v : β) (t : List (κ × β)) :
    alookup k ((k', v) :: t) = if k' = k then some v else alookup k t := rfl

@[simp] theorem aerase_nil (k : κ) : aerase k ([] : List (κ × β)) = [] := rfl

theorem aerase_cons (k k' : κ) (v : β) (t : List (κ × β)) :
    aerase k ((k', v) :: t) =
      if k' = k then aerase k t else (k', v) :: aerase k t := rfl

@[simp] theorem alookup_aerase_self (k : κ) (l : List (κ × β)) :
    alookup k (aerase k l) = none := by
  induction l with
  | nil => rfl
  | cons kv t ih =>
    obtain ⟨k', v⟩ := kv
    rw [aerase_cons]
    by_cases h : k' = k
    · simp [h, ih]
    · simp [h, ih]

theorem alookup_aerase_ne {k k' : κ} (h : k' ≠ k) (l : List (κ × β)) :
    alookup k' (aerase k l) = alookup k' l := by
  induction l with
  | nil => rfl
  | cons kv t ih =>
    obtain ⟨k'', v⟩ := kv
    rw [aerase_cons]
    by_cases h2 : k'' = k
    · subst h2
      rw [if_pos rfl, ih, alookup_cons, if_neg (Ne.symm h)]
    · rw [if_neg h2, alookup_cons, alookup_cons, ih]

@[simp] theorem alookup_aset_self (k : κ) (v : β) (l : List (κ × β)) :
    alookup k (aset k v l) = some v := by
  simp [aset]

theorem alookup_aset_ne {k k' : κ} (h : k' ≠ k) (v : β) (l : List (κ × β)) :
    alookup k' (aset k v l) = alookup k' l := by
  simp [aset, Ne.symm h, alookup_aerase_ne h]

/-- A successful lookup splits the list at the first occurrence of the key. -/
theorem alookup_split {k : κ} {v : β} {l : List (κ × β)}
    (h : alookup k l = some v) :
    ∃ l1 l2, l = l1 ++ (k, v) :: l2 ∧ ∀ kv ∈ l1, kv.1 ≠ k := by
  induction l with
  | nil => simp [alookup] at h
  | cons kv t ih =>
    obtain ⟨k', v'⟩ := kv
    rw [alookup_cons] at h
    by_cases h2 : k' = k
    · subst h2
      simp at h
      exact ⟨[], t, by simp [h], by simp⟩
    · rw [if_neg h2] at h
      obtain ⟨l1, l2, heq, hpre⟩ := ih h
      exact ⟨(k', v') :: l1, l2, by simp [heq], by
        intro kv hkv
        rcases List.mem_cons.mp hkv with h3 | h3
        · subst h3; exact h2
        · exact hpre kv h3⟩

theorem mem_of_alookup {k : κ} {v : β} {l : List (κ × β)}
    (h : alookup k l = some v) : (k, v) ∈ l := by
  obtain ⟨l1, l2, heq, -⟩ := alookup_split h
  subst heq
  simp

theorem alookup_isSome_of_mem {l : List (κ × β)} {kv : κ × β} (h : kv ∈ l) :
    (alookup kv.1 l).isSome := by
  induction l with
  | nil => simp at h
  | cons kv' t ih =>
    obtain ⟨k', v'⟩ := kv'
    rw [alookup_cons]
    by_cases h2 : k' = kv.1
    · simp [h2]
    · rw [if_neg h2]
      rcases List.mem_cons.mp h with h3 | h3
      · subst h3; simp at h2
      · exact ih h3

end HubMap

namespace CmdHub

open HubMap

/-- Acknowledgement statuses of `AcknowledgeStatus` in
`src/generated/command/v1/command` as used by `CommandPublisherService`. -/
inductive AckStatus
  | unspecified
  | received
  | completed
  | failed
  | rejected
deriving DecidableEq, Repr

/-- The final statuses checked in `acknowledge` (COMPLETED, FAILED, REJECTED). -/
def AckStatus.isFinal : AckStatus → Bool
  | .completed => true
  | .failed => true
  | .rejected => true
  | _ => false

/-- `success` boolean computed in `acknowledge`: only COMPLETED is success. -/
def ackSuccess : AckStatus → Bool
  | .completed => true
  | _ => false

/-- The `AckResult` interface of `command-publisher.service.ts`. -/
structure AckResult where
  success : Bool
  commandId : String
  deviceId : String
  errorMessage : Option String
  timedOut : Bool
deriving DecidableEq, Repr

/-- A `CommandPackage` as far as the publisher inspects it: the correlation id
and the ack flag.  The payload variant is treated opaquely by the service. -/
structure CommandPackage where
  commandId : String
  requiresAck : Bool
deriving DecidableEq, Repr

/-- One entry of the inner `Map<string, PendingAck>`.  The `resolve`/`reject`
closures of the JS object are represented by the id of the promise slot they
write. -/
structure PendingEntry where
  commandId : String
  deviceId : String
  promiseId : Nat
  timeoutMs : Nat
deriving DecidableEq, Repr

/-- A scheduled `setTimeout` callback from `waitForAck`.  The closure captures
the inner map object (`ref`), the command id, the device id, the promise's
`resolve`, and `timeoutMs`; `fired` models that a JS timer runs at most once. -/
structure TimerRec where
  ref : Nat
  deviceId : String
  commandId : String
  promiseId : Nat
  deadline : Nat
  timeoutMs : Nat
  fired : Bool
deriving DecidableEq, Repr

/-- State of `CommandPublisherService` (plus ghost structures).

* `subs` — the `subscriptions` map; the Bool is the subject's `closed` flag
  (never set to `true` by this codebase, but `sendCommand` checks it).
* `pendingRefs` — the outer `pendingAcks` map, device id to the heap address
  of its inner map.
* `heap` — the inner `Map<string, PendingAck>` objects.  They live on a heap
  because timer closures alias them even after the outer map drops them.
* `promises` — promise result slots; `none` = pending, `some r` = settled.
  JS promise semantics: only the first `resolve` writes.
* `timers` — scheduled timeout callbacks.
* `sent` — ghost log of outbound writes (`stream$.next(commandPackage)`).
* `nextId` — allocator for heap refs, promise ids and timer ids.

Device-info timestamps (`connectedAt`/`lastActivity`) are not modelled; no
claim mentions them. -/
structure HubState where
  subs : List (String × Bool)
  pendingRefs : List (String × Nat)
  heap : List (Nat × List (String × PendingEntry))
  promises : List (Nat × Option AckResult)
  timers : List (Nat × TimerRec)
  sent : List (String × CommandPackage)
  nextId : Nat
deriving DecidableEq, Repr

/-- The empty hub (service construction). -/
def initState : HubState :=
  { subs := [], pendingRefs := [], heap := [], promises := [], timers := [],
    sent := [], nextId := 0 }

/-- Settle a promise slot.  JS semantics: calling `resolve` on an already
settled promise is a no-op, so only an empty slot is written. -/
def resolveSlot (p : Nat) (v : AckResult) (pr : List (Nat × Option AckResult)) :
    List (Nat × Option AckResult) :=
  match alookup p pr with
  | some none => aset p (some v) pr
  | _ => pr

/-- Resolve every pending entry of one inner map with a result built from the
entry (the loops in `unsubscribe` and `onModuleDestroy`). -/
def resolveAll (mk : PendingEntry → AckResult)
    (entries : List (String × PendingEntry))
    (pr : List (Nat × Option AckResult)) : List (Nat × Option AckResult) :=
  entries.foldl (fun pr kv => resolveSlot kv.2.promiseId (mk kv.2) pr) pr

/-- Result used by `unsubscribe` for every pending ack of a detached device. -/
def disconnectedResult (e : PendingEntry) : AckResult :=
  { success := false, commandId := e.commandId, deviceId := e.deviceId,
    errorMessage := some "Device disconnected", timedOut := false }

/-- Result used by `onModuleDestroy` for every pending ack. -/
def shuttingDownResult (e : PendingEntry) : AckResult :=
  { success := false, commandId := e.commandId, deviceId := e.deviceId,
    errorMessage := some "Service shutting down", timedOut := false }

/-- `unsubscribe(deviceId)`: drop the subscription, resolve every pending ack
of the device with "Device disconnected", and drop the outer-map binding.
The entries stay inside the (now unreachable) inner map object, and the
scheduled timeouts are not cancelled — both visible to stale timer closures. -/
def unsubscribe (d : String) (s : HubState) : HubState :=
  let s1 := { s with subs := aerase d s.subs }
  match alookup d s1.pendingRefs with
  | none => s1
  | some r =>
    { s1 with
      promises := resolveAll disconnectedResult ((alookup r s1.heap).getD []) s1.promises,
      pendingRefs := aerase d s1.pendingRefs }

/-- The composed attach path `CommandController.subscribeCommands` +
`CommandPublisherService.subscribe`: completing the old subject synchronously
fires the controller's `complete` handler, which calls `unsubscribe`; then a
fresh subject is installed. -/
def subscribeCommands (d : String) (s : HubState) : HubState :=
  let s1 := if (alookup d s.subs).isSome then unsubscribe d s else s
  { s1 with subs := aset d false s1.subs }

/-- `acknowledge(deviceId, commandId, status, message)`: on a final status,
look up the waiter, settle its promise, delete the entry and — if the inner
map became empty — the outer binding.  Non-final statuses only log. -/
def acknowledge (d c : String) (st : AckStatus) (msg : Option String)
    (s : HubState) : HubState :=
  if st.isFinal then
    match alookup d s.pendingRefs with
    | none => s
    | some r =>
      match alookup r s.heap with
      | none => s
      | some inner =>
        match alookup c inner with
        | none => s
        | some e =>
          let inner' := aerase c inner
          { s with
            promises := resolveSlot e.promiseId
              { success := ackSuccess st, commandId := c, deviceId := d,
                errorMessage := msg, timedOut := false } s.promises,
            heap := aset r inner' s.heap,
            pendingRefs := if inner' = [] then aerase d s.pendingRefs else s.pendingRefs }
  else s

/-- The result written by a timeout callback. -/
def timeoutResult (t : TimerRec) : AckResult :=
  { success := false, commandId := t.commandId, deviceId := t.deviceId,
    errorMessage := some ("ACK timeout after " ++ toString t.timeoutMs ++ "ms"),
    timedOut := true }

/-- `waitForAck(deviceId, commandId, timeoutMs)` at absolute time `now`:
ensure the inner map exists, install the pending entry (overwriting any entry
with the same command id), allocate the promise slot and schedule the timeout.
Returns the new state, the promise id and the timer id.  The whole body runs
synchronously inside `sendCommand`'s call. -/
def waitForAck (d c : String) (timeoutMs now : Nat) (s : HubState) :
    HubState × Nat × Nat :=
  let (r, s1) :=
    match alookup d s.pendingRefs with
    | some r => (r, s)
    | none =>
      (s.nextId,
       { s with
         heap := aset s.nextId [] s.heap,
         pendingRefs := aset d s.nextId s.pendingRefs,
         nextId := s.nextId + 1 })
  let p := s1.nextId
  let s2 := { s1 with promises := aset p none s1.promises, nextId := s1.nextId + 1 }
  let inner := (alookup r s2.heap).getD []
  let s3 := { s2 with
    heap := aset r (aset c { commandId := c, deviceId := d, promiseId := p,
                             timeoutMs := timeoutMs } inner) s2.heap }
  let tid := s3.nextId
  let s4 := { s3 with
    timers := aset tid
      { ref := r, deviceId := d, commandId := c, promiseId := p,
        deadline := now + timeoutMs, timeoutMs := timeoutMs, fired := false }
      s3.timers,
    nextId := s3.nextId + 1 }
  (s4, p, tid)

/-- The outcome of `sendCommand` as seen by its caller: either an immediately
returned `AckResult`, or an awaited promise registered by `waitForAck`. -/
inductive SendOutcome
  | immediate (res : AckResult)
  | registered (promiseId timerId : Nat)
deriving DecidableEq, Repr

/-- `sendCommand(deviceId, commandPackage, timeoutMs)` at time `now`.  The
outbound write (`stream$.next`) and the `waitForAck` registration happen in
one synchronous section with no intervening suspension point, so they form a
single atomic step of the model. -/
def sendCommand (d : String) (pkg : CommandPackage) (timeoutMs now : Nat)
    (s : HubState) : HubState × SendOutcome :=
  match alookup d s.subs with
  | none =>
    (s, .immediate { success := false, commandId := pkg.commandId, deviceId := d,
                     errorMessage := some "Device not connected", timedOut := false })
  | some closed =>
    if closed then
      (s, .immediate { success := false, commandId := pkg.commandId, deviceId := d,
                       errorMessage := some "Device not connected", timedOut := false })
    else
      let s1 := { s with sent := s.sent ++ [(d, pkg)] }
      if pkg.requiresAck then
        let (s2, p, tid) := waitForAck d pkg.commandId timeoutMs now s1
        (s2, .registered p tid)
      else
        (s1, .immediate { success := true, commandId := pkg.commandId, deviceId := d,
                          errorMessage := none, timedOut := false })

/-- A `setTimeout` callback from `waitForAck` firing.  It looks up the command
in the inner map object it captured; if an entry is still there it deletes it,
possibly deletes the *current* outer binding of the device, and resolves the
promise it captured with a timeout result. -/
def timerFire (tid : Nat) (s : HubState) : HubState :=
  match alookup tid s.timers with
  | none => s
  | some t =>
    if t.fired then s
    else
      let s1 := { s with timers := aset tid { t with fired := true } s.timers }
      match alookup t.ref s1.heap with
      | none => s1
      | some inner =>
        match alookup t.commandId inner with
        | none => s1
        | some _ =>
          let inner' := aerase t.commandId inner
          { s1 with
            heap := aset t.ref inner' s1.heap,
            pendingRefs := if inner' = [] then aerase t.deviceId s1.pendingRefs
                           else s1.pendingRefs,
            promises := resolveSlot t.promiseId (timeoutResult t) s1.promises }

/-- `onModuleDestroy`: resolve every reachable pending ack with "Service
shutting down", clear the outer map, complete and clear all subjects.  (The
controller's complete handlers then find nothing left to do.)  Inner map
objects and scheduled timeouts survive, captured by timer closures. -/
def outerResolve (mk : PendingEntry → AckResult)
    (hp : List (Nat × List (String × PendingEntry)))
    (pairs : List (String × Nat)) (pr : List (Nat × Option AckResult)) :
    List (Nat × Option AckResult) :=
  pairs.foldl (fun pr dr => resolveAll mk ((alookup dr.2 hp).getD []) pr) pr

def shutdown (s : HubState) : HubState :=
  { s with
    promises := outerResolve shuttingDownResult s.heap s.pendingRefs s.promises,
    pendingRefs := [],
    subs := [] }

/-- `broadcastCommand(commandPackage, timeoutMs)`: iterate the subscriptions,
sending the *same* package (same correlation id) to every non-closed device. -/
def broadcastCommand (pkg : CommandPackage) (timeoutMs now : Nat) (s : HubState) :
    HubState × List SendOutcome :=
  s.subs.foldl
    (fun acc db =>
      if db.2 then acc
      else
        let (s', o) := sendCommand db.1 pkg timeoutMs now acc.1
        (s', acc.2 ++ [o]))
    (s, [])

/-- Events of the dispatch engine visible to the claims. -/
inductive Ev
  | ack (d c : String) (st : AckStatus) (msg : Option String)
  | unsub (d : String)
  | attach (d : String)
  | shutdown
  | timer (tid : Nat)
  | dispatch (d : String) (pkg : CommandPackage) (timeoutMs now : Nat)
deriving DecidableEq, Repr

def Ev.isDispatch : Ev → Bool
  | .dispatch _ _ _ _ => true
  | _ => false

def Ev.isAck : Ev → Bool
  | .ack _ _ _ _ => true
  | _ => false

/-- An ack event that is a terminal ack for the pair `(d, c)`. -/
def Ev.isFinalAckFor (d c : String) : Ev → Bool
  | .ack d' c' st _ => d' = d && c' = c && st.isFinal
  | _ => false

def step : Ev → HubState → HubState
  | .ack d c st msg, s => acknowledge d c st msg s
  | .unsub d, s => unsubscribe d s
  | .attach d, s => subscribeCommands d s
  | .shutdown, s => shutdown s
  | .timer tid, s => timerFire tid s
  | .dispatch d pkg t n, s => (sendCommand d pkg t n s).1

def run (es : List Ev) (s : HubState) : HubState :=
  es.foldl (fun s e => step e s) s

/-- The promise slot `p` has been settled. -/
def filledB (p : Nat) (s : HubState) : Bool :=
  match alookup p s.promises with
  | some (some _) => true
  | _ => false

/-- Number of steps of the trace at which slot `p` goes from pending to
settled — the number of effective writes of the final-result slot. -/
def writesCount (p : Nat) : List Ev → HubState → Nat
  | [], _ => 0
  | e :: es, s =>
    (if filledB p s = false ∧ filledB p (step e s) = true then 1 else 0) +
      writesCount p es (step e s)

end CmdHub

namespace CmdHub

open HubMap

theorem resolveSlot_self_pending {q : Nat} {pr : List (Nat × Option AckResult)}
    (h : alookup q pr = some none) (w : AckResult) :
    alookup q (resolveSlot q w pr) = some (some w) := by
  simp [resolveSlot, h]

theorem resolveAll_cons (mk : PendingEntry → AckResult)
    (kv : String × PendingEntry) (t : List (String × PendingEntry))
    (pr : List (Nat × Option AckResult)) :
    resolveAll mk (kv :: t) pr =
      resolveAll mk t (resolveSlot kv.2.promiseId (mk kv.2) pr) := rfl

theorem resolveSlot_other {p q : Nat} (hne : p ≠ q) (w : AckResult)
    (pr : List (Nat × Option AckResult)) :
    alookup p (resolveSlot q w pr) = alookup p pr := by
  unfold resolveSlot
  match hq : alookup q pr with
  | none => rfl
  | some none => exact alookup_aset_ne hne _ _
  | some (some v) => rfl

theorem resolveSlot_filled_mono {p q : Nat} {v : AckResult}
    {pr : List (Nat × Option AckResult)} (h : alookup p pr = some (some v))
    (w : AckResult) : alookup p (resolveSlot q w pr) = some (some v) := by
  by_cases hpq : p = q
  · subst hpq
    simp [resolveSlot, h]
  · rw [resolveSlot_other hpq]
    exact h

theorem resolveSlot_isSome {p q : Nat} {pr : List (Nat × Option AckResult)}
    (h : (alookup p pr).isSome) (w : AckResult) :
    (alookup p (resolveSlot q w pr)).isSome := by
  by_cases hpq : p = q
  · subst hpq
    unfold resolveSlot
    match hq : alookup p pr with
    | none => rw [hq] at h; simp at h
    | some none => simp
    | some (some v) => simp [hq]
  · rw [resolveSlot_other hpq]
    exact h

theorem resolveAll_filled_mono {p : Nat} {v : AckResult} (mk : PendingEntry → AckResult)
    (es : List (String × PendingEntry)) {pr : List (Nat × Option AckResult)}
    (h : alookup p pr = some (some v)) :
    alookup p (resolveAll mk es pr) = some (some v) := by
  induction es generalizing pr with
  | nil => exact h
  | cons kv t ih => exact ih (resolveSlot_filled_mono h _)

theorem resolveAll_isSome {p : Nat} (mk : PendingEntry → AckResult)
    (es : List (String × PendingEntry)) {pr : List (Nat × Option AckResult)}
    (h : (alookup p pr).isSome) :
    (alookup p (resolveAll mk es pr)).isSome := by
  induction es generalizing pr with
  | nil => exact h
  | cons kv t ih => exact ih (resolveSlot_isSome h _)

theorem resolveAll_miss {p : Nat} (mk : PendingEntry → AckResult)
    {es : List (String × PendingEntry)} {pr : List (Nat × Option AckResult)}
    (h : ∀ kv ∈ es, kv.2.promiseId ≠ p) :
    alookup p (resolveAll mk es pr) = alookup p pr := by
  induction es generalizing pr with
  | nil => rfl
  | cons kv t ih =>
    have h1 : kv.2.promiseId ≠ p := h kv (by simp)
    have h2 : ∀ kv' ∈ t, kv'.2.promiseId ≠ p := fun kv' hm => h kv' (by simp [hm])
    rw [resolveAll_cons, ih h2, resolveSlot_other (Ne.symm h1)]

theorem resolveAll_append (mk : PendingEntry → AckResult)
    (l1 l2 : List (String × PendingEntry)) (pr : List (Nat × Option AckResult)) :
    resolveAll mk (l1 ++ l2) pr = resolveAll mk l2 (resolveAll mk l1 pr) := by
  unfold resolveAll
  rw [List.foldl_append]

theorem resolveAll_fills {p : Nat} (mk : PendingEntry → AckResult)
    {es : List (String × PendingEntry)} {pr : List (Nat × Option AckResult)}
    (hslot : alookup p pr = some none)
    (hmem : ∃ kv ∈ es, kv.2.promiseId = p) :
    ∃ v, alookup p (resolveAll mk es pr) = some (some v) := by
  induction es generalizing pr with
  | nil => simp at hmem
  | cons kv t ih =>
    rw [resolveAll_cons]
    by_cases hk : kv.2.promiseId = p
    · subst hk
      exact ⟨mk kv.2, resolveAll_filled_mono mk t (resolveSlot_self_pending hslot _)⟩
    · obtain ⟨kv', hkv', hp'⟩ := hmem
      rcases List.mem_cons.mp hkv' with h3 | h3
      · exact absurd (h3 ▸ hp') hk
      · have : alookup p (resolveSlot kv.2.promiseId (mk kv.2) pr) = some none := by
          rw [resolveSlot_other (Ne.symm hk)]; exact hslot
        exact ih this ⟨kv', h3, hp'⟩

theorem resolveAll_hit_exact {p : Nat} (mk : PendingEntry → AckResult)
    {c : String} {e : PendingEntry} {inner : List (String × PendingEntry)}
    {pr : List (Nat × Option AckResult)}
    (hc : alookup c inner = some e) (hp : e.promiseId = p)
    (hslot : alookup p pr = some none)
    (huniq : ∀ kv ∈ inner, kv.2.promiseId = p → kv.1 = c) :
    alookup p (resolveAll mk inner pr) = some (some (mk e)) := by
  obtain ⟨l1, l2, heq, hpre⟩ := alookup_split hc
  subst heq
  rw [resolveAll_append]
  have hmiss : ∀ kv ∈ l1, kv.2.promiseId ≠ p := by
    intro kv hkv hpid
    exact hpre kv hkv (huniq kv (by simp [hkv]) hpid)
  have h1 : alookup p (resolveAll mk l1 pr) = some none := by
    rw [resolveAll_miss mk hmiss]; exact hslot
  rw [resolveAll_cons]
  exact resolveAll_filled_mono mk l2
    (by simpa [hp] using resolveSlot_self_pending h1 (mk e))

end CmdHub

namespace HubMap

variable {κ : Type} {β : Type} [DecidableEq κ]

theorem aerase_sublist (k : κ) (l : List (κ × β)) : (aerase k l).Sublist l := by
  induction l with
  | nil => exact List.Sublist.refl _
  | cons kv t ih =>
    obtain ⟨k', v⟩ := kv
    rw [aerase_cons]
    by_cases h : k' = k
    · rw [if_pos h]
      exact ih.cons _
    · rw [if_neg h]
      exact ih.cons₂ _

theorem mem_of_mem_aerase {k : κ} {l : List (κ × β)} {kv : κ × β}
    (h : kv ∈ aerase k l) : kv ∈ l :=
  (aerase_sublist k l).subset h

theorem key_ne_of_mem_aerase {k : κ} {l : List (κ × β)} {kv : κ × β}
    (h : kv ∈ aerase k l) : kv.1 ≠ k := by
  induction l with
  | nil => simp at h
  | cons kv' t ih =>
    obtain ⟨k', v⟩ := kv'
    rw [aerase_cons] at h
    by_cases h2 : k' = k
    · rw [if_pos h2] at h
      exact ih h
    · rw [if_neg h2] at h
      rcases List.mem_cons.mp h with h3 | h3
      · subst h3; exact h2
      · exact ih h3

theorem pairwise_keys_aerase (k : κ) {l : List (κ × β)}
    (h : l.Pairwise (fun a b => a.1 ≠ b.1)) :
    (aerase k l).Pairwise (fun a b => a.1 ≠ b.1) :=
  h.sublist (aerase_sublist k l)

theorem pairwise_keys_aset (k : κ) (v : β) {l : List (κ × β)}
    (h : l.Pairwise (fun a b => a.1 ≠ b.1)) :
    (aset k v l).Pairwise (fun a b => a.1 ≠ b.1) := by
  refine List.Pairwise.cons ?_ (pairwise_keys_aerase k h)
  intro kv hkv
  exact fun he => key_ne_of_mem_aerase hkv (he ▸ rfl)

theorem mem_aset {k : κ} {v : β} {l : List (κ × β)} {kv : κ × β}
    (h : kv ∈ aset k v l) : kv = (k, v) ∨ kv ∈ l := by
  rcases List.mem_cons.mp h with h2 | h2
  · exact Or.inl h2
  · exact Or.inr (mem_of_mem_aerase h2)

end HubMap

namespace CmdHub

open HubMap

theorem resolveSlot_pending_back {p q : Nat} {w : AckResult}
    {pr : List (Nat × Option AckResult)}
    (h : alookup p (resolveSlot q w pr) = some none) :
    alookup p pr = some none := by
  by_cases hpq : p = q
  · subst hpq
    unfold resolveSlot at h
    match hq : alookup p pr with
    | none => simp [hq] at h
    | some none => rfl
    | some (some v) => simp [hq] at h
  · rw [resolveSlot_other hpq] at h
    exact h

theorem resolveAll_pending_back {p : Nat} {mk : PendingEntry → AckResult}
    {es : List (String × PendingEntry)} {pr : List (Nat × Option AckResult)}
    (h : alookup p (resolveAll mk es pr) = some none) :
    alookup p pr = some none := by
  induction es generalizing pr with
  | nil => exact h
  | cons kv t ih =>
    rw [resolveAll_cons] at h
    exact resolveSlot_pending_back (ih h)

theorem outerResolve_cons (mk : PendingEntry → AckResult)
    (hp : List (Nat × List (String × PendingEntry)))
    (dr : String × Nat) (t : List (String × Nat))
    (pr : List (Nat × Option AckResult)) :
    outerResolve mk hp (dr :: t) pr =
      outerResolve mk hp t (resolveAll mk ((alookup dr.2 hp).getD []) pr) := rfl

theorem outerResolve_append (mk : PendingEntry → AckResult)
    (hp : List (Nat × List (String × PendingEntry)))
    (l1 l2 : List (String × Nat)) (pr : List (Nat × Option AckResult)) :
    outerResolve mk hp (l1 ++ l2) pr = outerResolve mk hp l2 (outerResolve mk hp l1 pr) := by
  unfold outerResolve
  rw [List.foldl_append]

theorem outerResolve_filled_mono {p : Nat} {v : AckResult} (mk : PendingEntry → AckResult)
    (hp : List (Nat × List (String × PendingEntry)))
    (pairs : List (String × Nat)) {pr : List (Nat × Option AckResult)}
    (h : alookup p pr = some (some v)) :
    alookup p (outerResolve mk hp pairs pr) = some (some v) := by
  induction pairs generalizing pr with
  | nil => exact h
  | cons dr t ih => exact ih (resolveAll_filled_mono mk _ h)

theorem outerResolve_isSome {p : Nat} (mk : PendingEntry → AckResult)
    (hp : List (Nat × List (String × PendingEntry)))
    (pairs : List (String × Nat)) {pr : List (Nat × Option AckResult)}
    (h : (alookup p pr).isSome) :
    (alookup p (outerResolve mk hp pairs pr)).isSome := by
  induction pairs generalizing pr with
  | nil => exact h
  | cons dr t ih => exact ih (resolveAll_isSome mk _ h)

theorem outerResolve_pending_back {p : Nat} {mk : PendingEntry → AckResult}
    {hp : List (Nat × List (String × PendingEntry))}
    {pairs : List (String × Nat)} {pr : List (Nat × Option AckResult)}
    (h : alookup p (outerResolve mk hp pairs pr) = some none) :
    alookup p pr = some none := by
  induction pairs generalizing pr with
  | nil => exact h
  | cons dr t ih =>
    rw [outerResolve_cons] at h
    exact resolveAll_pending_back (ih h)

theorem outerResolve_miss {p : Nat} (mk : PendingEntry → AckResult)
    (hp : List (Nat × List (String × PendingEntry)))
    {pairs : List (String × Nat)} {pr : List (Nat × Option AckResult)}
    (h : ∀ dr ∈ pairs, ∀ kv ∈ (alookup dr.2 hp).getD [], kv.2.promiseId ≠ p) :
    alookup p (outerResolve mk hp pairs pr) = alookup p pr := by
  induction pairs generalizing pr with
  | nil => rfl
  | cons dr t ih =>
    rw [outerResolve_cons]
    rw [ih (fun dr' hdr' => h dr' (by simp [hdr'])),
        resolveAll_miss mk (h dr (by simp))]

theorem outerResolve_fills {p : Nat} (mk : PendingEntry → AckResult)
    (hp : List (Nat × List (String × PendingEntry)))
    {pairs : List (String × Nat)} {pr : List (Nat × Option AckResult)}
    {d : String} {r : Nat}
    (hmem : alookup d pairs = some r)
    (hpre : ∀ dr ∈ pairs, dr.1 ≠ d → ∀ kv ∈ (alookup dr.2 hp).getD [], kv.2.promiseId ≠ p)
    (hnodup : pairs.Pairwise (fun a b => a.1 ≠ b.1))
    (hslot : alookup p pr = some none)
    (hhit : ∃ kv ∈ (alookup r hp).getD [], kv.2.promiseId = p) :
    ∃ v, alookup p (outerResolve mk hp pairs pr) = some (some v) := by
  obtain ⟨l1, l2, heq, hl1⟩ := alookup_split hmem
  subst heq
  rw [outerResolve_append, outerResolve_cons]
  have h1 : alookup p (outerResolve mk hp l1 pr) = some none := by
    rw [outerResolve_miss mk hp ?_]
    · exact hslot
    · intro dr hdr kv hkv
      exact hpre dr (by simp [hdr]) (hl1 dr hdr) kv hkv
  obtain ⟨v, hv⟩ := resolveAll_fills mk h1 hhit
  refine ⟨v, ?_⟩
  have hl2 : ∀ dr ∈ l2, dr.1 ≠ d := by
    intro dr hdr
    have hsub : ((d, r) :: l2).Sublist (l1 ++ (d, r) :: l2) :=
      List.sublist_append_right l1 _
    have := List.Pairwise.sublist hsub hnodup
    rcases List.pairwise_cons.mp this with ⟨hh, -⟩
    exact fun he => (hh dr hdr) he.symm
  rw [outerResolve_miss mk hp ?_]
  · exact hv
  · intro dr hdr kv hkv
    exact hpre dr (by simp [hdr]) (hl2 dr hdr) kv hkv

end CmdHub

namespace CmdHub

open HubMap

theorem acknowledge_nonfinal {st : AckStatus} (hst : st.isFinal = false)
    (d c : String) (msg : Option String) (s : HubState) :
    acknowledge d c st msg s = s := by
  unfold acknowledge
  rw [hst]
  simp

theorem acknowledge_noref {d : String} {s : HubState}
    (h1 : alookup d s.pendingRefs = none) (c : String) (st : AckStatus)
    (msg : Option String) : acknowledge d c st msg s = s := by
  unfold acknowledge
  split
  · rw [h1]
  · rfl

theorem acknowledge_noheap {d c : String} {s : HubState} {r : Nat}
    (h1 : alookup d s.pendingRefs = some r) (h2 : alookup r s.heap = none)
    (st : AckStatus) (msg : Option String) : acknowledge d c st msg s = s := by
  unfold acknowledge
  split
  · simp [h1, h2]
  · rfl

theorem acknowledge_noentry {d c : String} {s : HubState} {r : Nat}
    {inner : List (String × PendingEntry)}
    (h1 : alookup d s.pendingRefs = some r) (h2 : alookup r s.heap = some inner)
    (h3 : alookup c inner = none) (st : AckStatus) (msg : Option String) :
    acknowledge d c st msg s = s := by
  unfold acknowledge
  split
  · simp [h1, h2, h3]
  · rfl

theorem acknowledge_found {d c : String} {s : HubState} {r : Nat}
    {inner : List (String × PendingEntry)} {e : PendingEntry} {st : AckStatus}
    (hf : st.isFinal = true)
    (h1 : alookup d s.pendingRefs = some r) (h2 : alookup r s.heap = some inner)
    (h3 : alookup c inner = some e) (msg : Option String) :
    acknowledge d c st msg s =
      { s with
        promises := resolveSlot e.promiseId
          { success := ackSuccess st, commandId := c, deviceId := d,
            errorMessage := msg, timedOut := false } s.promises,
        heap := aset r (aerase c inner) s.heap,
        pendingRefs := if aerase c inner = [] then aerase d s.pendingRefs
                       else s.pendingRefs } := by
  unfold acknowledge
  rw [hf]
  simp only [if_true, h1, h2, h3]

theorem unsubscribe_noref {d : String} {s : HubState}
    (h : alookup d s.pendingRefs = none) :
    unsubscribe d s = { s with subs := aerase d s.subs } := by
  unfold unsubscribe
  simp [h]

theorem unsubscribe_ref {d : String} {s : HubState} {r : Nat}
    (h : alookup d s.pendingRefs = some r) :
    unsubscribe d s =
      { s with
        subs := aerase d s.subs,
        promises := resolveAll disconnectedResult ((alookup r s.heap).getD []) s.promises,
        pendingRefs := aerase d s.pendingRefs } := by
  unfold unsubscribe
  simp [h]

theorem timerFire_none {tid : Nat} {s : HubState}
    (h : alookup tid s.timers = none) : timerFire tid s = s := by
  unfold timerFire
  rw [h]

theorem timerFire_fired {tid : Nat} {s : HubState} {t : TimerRec}
    (h : alookup tid s.timers = some t) (hf : t.fired = true) :
    timerFire tid s = s := by
  unfold timerFire
  simp [h, hf]

theorem timerFire_noheap {tid : Nat} {s : HubState} {t : TimerRec}
    (h : alookup tid s.timers = some t) (hf : t.fired = false)
    (h2 : alookup t.ref s.heap = none) :
    timerFire tid s = { s with timers := aset tid { t with fired := true } s.timers } := by
  unfold timerFire
  simp [h, hf, h2]

theorem timerFire_noentry {tid : Nat} {s : HubState} {t : TimerRec}
    {inner : List (String × PendingEntry)}
    (h : alookup tid s.timers = some t) (hf : t.fired = false)
    (h2 : alookup t.ref s.heap = some inner)
    (h3 : alookup t.commandId inner = none) :
    timerFire tid s = { s with timers := aset tid { t with fired := true } s.timers } := by
  unfold timerFire
  simp [h, hf, h2, h3]

theorem timerFire_found {tid : Nat} {s : HubState} {t : TimerRec}
    {inner : List (String × PendingEntry)} {e : PendingEntry}
    (h : alookup tid s.timers = some t) (hf : t.fired = false)
    (h2 : alookup t.ref s.heap = some inner)
    (h3 : alookup t.commandId inner = some e) :
    timerFire tid s =
      { s with
        timers := aset tid { t with fired := true } s.timers,
        heap := aset t.ref (aerase t.commandId inner) s.heap,
        pendingRefs := if aerase t.commandId inner = [] then aerase t.deviceId s.pendingRefs
                       else s.pendingRefs,
        promises := resolveSlot t.promiseId (timeoutResult t) s.promises } := by
  unfold timerFire
  simp [h, hf, h2, h3]

theorem acknowledge_timers (d c : String) (st : AckStatus) (msg : Option String)
    (s : HubState) : (acknowledge d c st msg s).timers = s.timers := by
  unfold acknowledge
  repeat' split
  all_goals rfl

end CmdHub

namespace CmdHub

open HubMap

/-- Correctness invariant for one registered waiter of the command publisher:
device `d`, correlation id `c`, inner-map ref `r`, promise slot `p`, timeout
timer `tid` with budget `T` and absolute deadline `dl`.  It holds from
registration onwards for every event of the joint space
{ack, detach, attach/replace, shutdown, timer} (no further dispatches). -/
structure WaiterInv (d c : String) (r p tid T dl : Nat) (s : HubState) : Prop where
  slotSome : (alookup p s.promises).isSome
  entry : alookup p s.promises = some none →
    ∃ inner, alookup r s.heap = some inner ∧
      ∃ tm, alookup c inner =
        some { commandId := c, deviceId := d, promiseId := p, timeoutMs := tm }
  route : ∀ r', alookup d s.pendingRefs = some r' → r' = r
  routeOthers : ∀ dr ∈ s.pendingRefs, dr.2 = r → dr.1 = d
  pendingNodup : s.pendingRefs.Pairwise (fun a b => a.1 ≠ b.1)
  promiseUnique : ∀ rin ∈ s.heap, ∀ kv ∈ rin.2, kv.2.promiseId = p →
    rin.1 = r ∧ kv.1 = c
  myTimer : ∃ t, alookup tid s.timers = some t ∧ t.ref = r ∧ t.commandId = c ∧
    t.promiseId = p ∧ t.deviceId = d ∧ t.timeoutMs = T ∧ t.deadline = dl ∧
    (alookup p s.promises = some none → t.fired = false)
  timerNoClash : ∀ tid' t', tid' ≠ tid → alookup tid' s.timers = some t' →
    t'.fired = false → t'.promiseId ≠ p ∧ ¬(t'.ref = r ∧ t'.commandId = c)

theorem route_aerase {d d'' : String} {r : Nat} {refs : List (String × Nat)}
    (h : ∀ r', alookup d refs = some r' → r' = r) :
    ∀ r', alookup d (aerase d'' refs) = some r' → r' = r := by
  intro r' hr'
  by_cases hd : d = d''
  · subst hd
    rw [alookup_aerase_self] at hr'
    exact absurd hr' (by simp)
  · rw [alookup_aerase_ne hd] at hr'
    exact h r' hr'

theorem route_ite {d d'' : String} {r : Nat} {refs : List (String × Nat)}
    (h : ∀ r', alookup d refs = some r' → r' = r) (b : Prop) [Decidable b] :
    ∀ r', alookup d (if b then aerase d'' refs else refs) = some r' → r' = r := by
  split
  · exact route_aerase h
  · exact h

theorem routeOthers_ite {d d'' : String} {r : Nat} {refs : List (String × Nat)}
    (h : ∀ dr ∈ refs, dr.2 = r → dr.1 = d) (b : Prop) [Decidable b] :
    ∀ dr ∈ (if b then aerase d'' refs else refs), dr.2 = r → dr.1 = d := by
  split
  · exact fun dr hdr => h dr (mem_of_mem_aerase hdr)
  · exact h

theorem nodup_ite {d'' : String} {refs : List (String × Nat)}
    (h : refs.Pairwise (fun a b => a.1 ≠ b.1)) (b : Prop) [Decidable b] :
    (if b then aerase d'' refs else refs).Pairwise (fun a b => a.1 ≠ b.1) := by
  split
  · exact pairwise_keys_aerase _ h
  · exact h

theorem promiseUnique_update {p r : Nat} {c : String} {r'' : Nat} {c'' : String}
    {heap : List (Nat × List (String × PendingEntry))}
    {inner'' : List (String × PendingEntry)}
    (hpu : ∀ rin ∈ heap, ∀ kv ∈ rin.2, kv.2.promiseId = p → rin.1 = r ∧ kv.1 = c)
    (h2 : alookup r'' heap = some inner'') :
    ∀ rin ∈ aset r'' (aerase c'' inner'') heap, ∀ kv ∈ rin.2,
      kv.2.promiseId = p → rin.1 = r ∧ kv.1 = c := by
  intro rin hrin kv hkv hpid
  rcases mem_aset hrin with h3 | h3
  · subst h3
    exact hpu (r'', inner'') (mem_of_alookup h2) kv (mem_of_mem_aerase hkv) hpid
  · exact hpu rin h3 kv hkv hpid

theorem entry_preserved {r : Nat} {c d : String} {p : Nat}
    {heap : List (Nat × List (String × PendingEntry))}
    {r'' : Nat} {c'' : String}
    {inner inner'' : List (String × PendingEntry)} {tm : Nat}
    (hin : alookup r heap = some inner)
    (hc : alookup c inner =
      some { commandId := c, deviceId := d, promiseId := p, timeoutMs := tm })
    (h2 : alookup r'' heap = some inner'')
    (hne : ¬(r'' = r ∧ c'' = c)) :
    ∃ innerX, alookup r (aset r'' (aerase c'' inner'') heap) = some innerX ∧
      ∃ tm', alookup c innerX =
        some { commandId := c, deviceId := d, promiseId := p, timeoutMs := tm' } := by
  by_cases hr : r'' = r
  · subst hr
    have hii : inner'' = inner := by
      rw [hin] at h2; exact (Option.some.injEq _ _ ▸ h2).symm
    subst hii
    have hcc : c ≠ c'' := by
      intro he
      exact hne ⟨rfl, he.symm⟩
    exact ⟨aerase c'' inner'', by rw [alookup_aset_self], tm,
      by rw [alookup_aerase_ne hcc]; exact hc⟩
  · have hr' : r ≠ r'' := fun he => hr he.symm
    exact ⟨inner, by rw [alookup_aset_ne hr']; exact hin, tm, hc⟩

theorem noclash_mark {p r tid : Nat} {c : String} {tid'' : Nat} {t'' : TimerRec}
    {timers : List (Nat × TimerRec)}
    (hnc : ∀ tid' t', tid' ≠ tid → alookup tid' timers = some t' →
      t'.fired = false → t'.promiseId ≠ p ∧ ¬(t'.ref = r ∧ t'.commandId = c)) :
    ∀ tidq t', tidq ≠ tid →
      alookup tidq (aset tid'' { t'' with fired := true } timers) = some t' →
      t'.fired = false → t'.promiseId ≠ p ∧ ¬(t'.ref = r ∧ t'.commandId = c) := by
  intro tidq t' hne hlk hf
  by_cases hq : tidq = tid''
  · subst hq
    rw [alookup_aset_self] at hlk
    cases hlk
    simp at hf
  · rw [alookup_aset_ne hq] at hlk
    exact hnc tidq t' hne hlk hf

end CmdHub

namespace CmdHub

open HubMap

theorem inv_acknowledge {d c : String} {r p tid T dl : Nat} {s : HubState}
    (hI : WaiterInv d c r p tid T dl s) (d' c' : String) (st' : AckStatus)
    (msg' : Option String) :
    WaiterInv d c r p tid T dl (acknowledge d' c' st' msg' s) := by
  by_cases hf : st'.isFinal = true
  case neg =>
    rw [acknowledge_nonfinal (Bool.not_eq_true _ ▸ hf) d' c' msg' s]
    exact hI
  rcases h1 : alookup d' s.pendingRefs with _ | r''
  · rw [acknowledge_noref h1]; exact hI
  rcases h2 : alookup r'' s.heap with _ | inner''
  · rw [acknowledge_noheap h1 h2]; exact hI
  rcases h3 : alookup c' inner'' with _ | e
  · rw [acknowledge_noentry h1 h2 h3]; exact hI
  rw [acknowledge_found hf h1 h2 h3 msg']
  have hback :
      alookup p (resolveSlot e.promiseId
        { success := ackSuccess st', commandId := c', deviceId := d',
          errorMessage := msg', timedOut := false } s.promises) = some none →
      alookup p s.promises = some none := fun h => resolveSlot_pending_back h
  refine ⟨?_, ?_, ?_, ?_, ?_, ?_, ?_, ?_⟩
  · exact resolveSlot_isSome hI.slotSome _
  · intro hpend'
    have hpend := hback hpend'
    have hep : e.promiseId ≠ p := by
      intro he
      rw [he] at hpend'
      rw [resolveSlot_self_pending hpend _] at hpend'
      simp at hpend'
    obtain ⟨inner, hin, tm, hc⟩ := hI.entry hpend
    have hne : ¬(r'' = r ∧ c' = c) := by
      rintro ⟨hr, hc'⟩
      subst hr; subst hc'
      rw [hin] at h2
      cases h2
      rw [hc] at h3
      cases h3
      exact hep rfl
    exact entry_preserved hin hc h2 hne
  · exact route_ite hI.route _
  · exact routeOthers_ite hI.routeOthers _
  · exact nodup_ite hI.pendingNodup _
  · exact promiseUnique_update hI.promiseUnique h2
  · obtain ⟨t, hlk, ht⟩ := hI.myTimer
    exact ⟨t, hlk, ht.1, ht.2.1, ht.2.2.1, ht.2.2.2.1, ht.2.2.2.2.1, ht.2.2.2.2.2.1,
      fun hpend' => ht.2.2.2.2.2.2 (hback hpend')⟩
  · exact hI.timerNoClash

theorem inv_unsubscribe {d c : String} {r p tid T dl : Nat} {s : HubState}
    (hI : WaiterInv d c r p tid T dl s) (d' : String) :
    WaiterInv d c r p tid T dl (unsubscribe d' s) := by
  rcases h1 : alookup d' s.pendingRefs with _ | r''
  · rw [unsubscribe_noref h1]
    exact ⟨hI.slotSome, hI.entry, hI.route, hI.routeOthers, hI.pendingNodup,
      hI.promiseUnique, hI.myTimer, hI.timerNoClash⟩
  rw [unsubscribe_ref h1]
  refine ⟨?_, ?_, ?_, ?_, ?_, ?_, ?_, ?_⟩
  · exact resolveAll_isSome _ _ hI.slotSome
  · intro hpend'
    exact hI.entry (resolveAll_pending_back hpend')
  · exact route_aerase hI.route
  · exact fun dr hdr => hI.routeOthers dr (mem_of_mem_aerase hdr)
  · exact pairwise_keys_aerase _ hI.pendingNodup
  · exact hI.promiseUnique
  · obtain ⟨t, hlk, ht⟩ := hI.myTimer
    exact ⟨t, hlk, ht.1, ht.2.1, ht.2.2.1, ht.2.2.2.1, ht.2.2.2.2.1, ht.2.2.2.2.2.1,
      fun hpend' => ht.2.2.2.2.2.2 (resolveAll_pending_back hpend')⟩
  · exact hI.timerNoClash

theorem inv_attach {d c : String} {r p tid T dl : Nat} {s : HubState}
    (hI : WaiterInv d c r p tid T dl s) (d' : String) :
    WaiterInv d c r p tid T dl (subscribeCommands d' s) := by
  unfold subscribeCommands
  have hbody : ∀ s' : HubState, WaiterInv d c r p tid T dl s' →
      WaiterInv d c r p tid T dl { s' with subs := aset d' false s'.subs } :=
    fun s' h => ⟨h.slotSome, h.entry, h.route, h.routeOthers, h.pendingNodup,
      h.promiseUnique, h.myTimer, h.timerNoClash⟩
  split
  · exact hbody _ (inv_unsubscribe hI d')
  · exact hbody _ hI

theorem inv_shutdown {d c : String} {r p tid T dl : Nat} {s : HubState}
    (hI : WaiterInv d c r p tid T dl s) :
    WaiterInv d c r p tid T dl (shutdown s) := by
  refine ⟨?_, ?_, ?_, ?_, ?_, ?_, ?_, ?_⟩
  · exact outerResolve_isSome _ _ _ hI.slotSome
  · intro hpend'
    exact hI.entry (outerResolve_pending_back hpend')
  · intro r' hr'
    simp [shutdown] at hr'
  · intro dr hdr
    simp [shutdown] at hdr
  · simp [shutdown]
  · exact hI.promiseUnique
  · obtain ⟨t, hlk, ht⟩ := hI.myTimer
    exact ⟨t, hlk, ht.1, ht.2.1, ht.2.2.1, ht.2.2.2.1, ht.2.2.2.2.1, ht.2.2.2.2.2.1,
      fun hpend' => ht.2.2.2.2.2.2 (outerResolve_pending_back hpend')⟩
  · exact hI.timerNoClash

end CmdHub

namespace CmdHub

open HubMap

theorem inv_timerFire {d c : String} {r p tid T dl : Nat} {s : HubState}
    (hI : WaiterInv d c r p tid T dl s) (tid' : Nat) :
    WaiterInv d c r p tid T dl (timerFire tid' s) := by
  rcases h : alookup tid' s.timers with _ | t'
  · rw [timerFire_none h]; exact hI
  rcases hfd : t'.fired with _ | _
  case true => rw [timerFire_fired h hfd]; exact hI
  obtain ⟨t, hlk, htr, htc, htp, htd, htm, htdl, htf⟩ := hI.myTimer
  by_cases htid : tid' = tid
  -- Case: the waiter's own timer fires.
  · subst htid
    have hte : t' = t := by rw [h] at hlk; cases hlk; rfl
    subst hte
    have habs : ∀ s' : HubState, s'.promises = s.promises →
        alookup p s'.promises = some none →
        (alookup t'.ref s.heap = none ∨
         ∃ innerZ, alookup t'.ref s.heap = some innerZ ∧
           alookup t'.commandId innerZ = none) → False := by
      rintro s' hpr hpend (hz | ⟨innerZ, hz, hz2⟩)
      · obtain ⟨inner, hin, tm, hc⟩ := hI.entry (hpr ▸ hpend)
        rw [htr, hin] at hz
        cases hz
      · obtain ⟨inner, hin, tm, hc⟩ := hI.entry (hpr ▸ hpend)
        rw [htr, hin] at hz
        cases hz
        rw [htc, hc] at hz2
        cases hz2
    rcases h2 : alookup t'.ref s.heap with _ | inner''
    · rw [timerFire_noheap h hfd h2]
      refine ⟨hI.slotSome, ?_, hI.route, hI.routeOthers, hI.pendingNodup,
        hI.promiseUnique, ?_, ?_⟩
      · intro hpend'
        exact (habs _ rfl hpend' (Or.inl h2)).elim
      · refine ⟨{ t' with fired := true }, by rw [alookup_aset_self], htr, htc, htp,
          htd, htm, htdl, ?_⟩
        intro hpend'
        exact (habs _ rfl hpend' (Or.inl h2)).elim
      · exact noclash_mark hI.timerNoClash
    rcases h3 : alookup t'.commandId inner'' with _ | e
    · rw [timerFire_noentry h hfd h2 h3]
      refine ⟨hI.slotSome, ?_, hI.route, hI.routeOthers, hI.pendingNodup,
        hI.promiseUnique, ?_, ?_⟩
      · intro hpend'
        exact (habs _ rfl hpend' (Or.inr ⟨inner'', h2, h3⟩)).elim
      · refine ⟨{ t' with fired := true }, by rw [alookup_aset_self], htr, htc, htp,
          htd, htm, htdl, ?_⟩
        intro hpend'
        exact (habs _ rfl hpend' (Or.inr ⟨inner'', h2, h3⟩)).elim
      · exact noclash_mark hI.timerNoClash
    rw [timerFire_found h hfd h2 h3]
    have hfillabs : alookup p (resolveSlot t'.promiseId (timeoutResult t') s.promises)
        = some none → False := by
      intro hpend'
      have hpend := resolveSlot_pending_back hpend'
      rw [htp] at hpend'
      rw [resolveSlot_self_pending hpend _] at hpend'
      simp at hpend'
    refine ⟨?_, ?_, ?_, ?_, ?_, ?_, ?_, ?_⟩
    · exact resolveSlot_isSome hI.slotSome _
    · intro hpend'
      exact (hfillabs hpend').elim
    · exact route_ite hI.route _
    · exact routeOthers_ite hI.routeOthers _
    · exact nodup_ite hI.pendingNodup _
    · exact promiseUnique_update hI.promiseUnique h2
    · refine ⟨{ t' with fired := true }, by rw [alookup_aset_self], htr, htc, htp,
        htd, htm, htdl, ?_⟩
      intro hpend'
      exact (hfillabs hpend').elim
    · exact noclash_mark hI.timerNoClash
  -- Case: some other timer fires.
  · obtain ⟨hq, hrc⟩ := hI.timerNoClash tid' t' htid h hfd
    rcases h2 : alookup t'.ref s.heap with _ | inner''
    · rw [timerFire_noheap h hfd h2]
      refine ⟨hI.slotSome, hI.entry, hI.route, hI.routeOthers, hI.pendingNodup,
        hI.promiseUnique, ?_, ?_⟩
      · exact ⟨t, by rw [alookup_aset_ne (Ne.symm htid)]; exact hlk, htr, htc, htp, htd,
          htm, htdl, htf⟩
      · exact noclash_mark hI.timerNoClash
    rcases h3 : alookup t'.commandId inner'' with _ | e
    · rw [timerFire_noentry h hfd h2 h3]
      refine ⟨hI.slotSome, hI.entry, hI.route, hI.routeOthers, hI.pendingNodup,
        hI.promiseUnique, ?_, ?_⟩
      · exact ⟨t, by rw [alookup_aset_ne (Ne.symm htid)]; exact hlk, htr, htc, htp, htd,
          htm, htdl, htf⟩
      · exact noclash_mark hI.timerNoClash
    rw [timerFire_found h hfd h2 h3]
    have hback : alookup p (resolveSlot t'.promiseId (timeoutResult t') s.promises)
        = some none → alookup p s.promises = some none :=
      fun hx => resolveSlot_pending_back hx
    refine ⟨?_, ?_, ?_, ?_, ?_, ?_, ?_, ?_⟩
    · exact resolveSlot_isSome hI.slotSome _
    · intro hpend'
      obtain ⟨inner, hin, tm, hc⟩ := hI.entry (hback hpend')
      exact entry_preserved hin hc h2 hrc
    · exact route_ite hI.route _
    · exact routeOthers_ite hI.routeOthers _
    · exact nodup_ite hI.pendingNodup _
    · exact promiseUnique_update hI.promiseUnique h2
    · exact ⟨t, by rw [alookup_aset_ne (Ne.symm htid)]; exact hlk, htr, htc, htp, htd,
        htm, htdl, fun hpend' => htf (hback hpend')⟩
    · exact noclash_mark hI.timerNoClash

end CmdHub

namespace CmdHub

open HubMap

theorem acknowledge_filled_mono {p : Nat} {v : AckResult} {s : HubState}
    (h : alookup p s.promises = some (some v)) (d' c' : String) (st' : AckStatus)
    (msg' : Option String) :
    alookup p (acknowledge d' c' st' msg' s).promises = some (some v) := by
  by_cases hf : st'.isFinal = true
  case neg => rw [acknowledge_nonfinal (Bool.not_eq_true _ ▸ hf)]; exact h
  rcases h1 : alookup d' s.pendingRefs with _ | r''
  · rw [acknowledge_noref h1]; exact h
  rcases h2 : alookup r'' s.heap with _ | inner''
  · rw [acknowledge_noheap h1 h2]; exact h
  rcases h3 : alookup c' inner'' with _ | e
  · rw [acknowledge_noentry h1 h2 h3]; exact h
  rw [acknowledge_found hf h1 h2 h3 msg']
  exact resolveSlot_filled_mono h _

theorem unsubscribe_filled_mono {p : Nat} {v : AckResult} {s : HubState}
    (h : alookup p s.promises = some (some v)) (d' : String) :
    alookup p (unsubscribe d' s).promises = some (some v) := by
  rcases h1 : alookup d' s.pendingRefs with _ | r''
  · rw [unsubscribe_noref h1]; exact h
  · rw [unsubscribe_ref h1]; exact resolveAll_filled_mono _ _ h

theorem attach_filled_mono {p : Nat} {v : AckResult} {s : HubState}
    (h : alookup p s.promises = some (some v)) (d' : String) :
    alookup p (subscribeCommands d' s).promises = some (some v) := by
  unfold subscribeCommands
  split
  · exact unsubscribe_filled_mono h d'
  · exact h

theorem shutdown_filled_mono {p : Nat} {v : AckResult} {s : HubState}
    (h : alookup p s.promises = some (some v)) :
    alookup p (shutdown s).promises = some (some v) :=
  outerResolve_filled_mono _ _ _ h

theorem timerFire_filled_mono {p : Nat} {v : AckResult} {s : HubState}
    (h : alookup p s.promises = some (some v)) (tid' : Nat) :
    alookup p (timerFire tid' s).promises = some (some v) := by
  rcases h1 : alookup tid' s.timers with _ | t'
  · rw [timerFire_none h1]; exact h
  rcases hfd : t'.fired with _ | _
  case true => rw [timerFire_fired h1 hfd]; exact h
  rcases h2 : alookup t'.ref s.heap with _ | inner''
  · rw [timerFire_noheap h1 hfd h2]; exact h
  rcases h3 : alookup t'.commandId inner'' with _ | e
  · rw [timerFire_noentry h1 hfd h2 h3]; exact h
  rw [timerFire_found h1 hfd h2 h3]
  exact resolveSlot_filled_mono h _

theorem filledB_true_iff {p : Nat} {s : HubState} :
    filledB p s = true ↔ ∃ v, alookup p s.promises = some (some v) := by
  unfold filledB
  rcases alookup p s.promises with _ | (_ | v) <;> simp

theorem step_filled_mono {p : Nat} {s : HubState} {e : Ev}
    (hd : e.isDispatch = false) (h : filledB p s = true) :
    filledB p (step e s) = true := by
  obtain ⟨v, hv⟩ := filledB_true_iff.mp h
  cases e with
  | ack d' c' st' msg' => exact filledB_true_iff.mpr ⟨v, acknowledge_filled_mono hv d' c' st' msg'⟩
  | unsub d' => exact filledB_true_iff.mpr ⟨v, unsubscribe_filled_mono hv d'⟩
  | attach d' => exact filledB_true_iff.mpr ⟨v, attach_filled_mono hv d'⟩
  | shutdown => exact filledB_true_iff.mpr ⟨v, shutdown_filled_mono hv⟩
  | timer tid' => exact filledB_true_iff.mpr ⟨v, timerFire_filled_mono hv tid'⟩
  | dispatch d' pkg T n => simp [Ev.isDispatch] at hd

theorem inv_step {d c : String} {r p tid T dl : Nat} {s : HubState} {e : Ev}
    (hd : e.isDispatch = false) (hI : WaiterInv d c r p tid T dl s) :
    WaiterInv d c r p tid T dl (step e s) := by
  cases e with
  | ack d' c' st' msg' => exact inv_acknowledge hI d' c' st' msg'
  | unsub d' => exact inv_unsubscribe hI d'
  | attach d' => exact inv_attach hI d'
  | shutdown => exact inv_shutdown hI
  | timer tid' => exact inv_timerFire hI tid'
  | dispatch d' pkg T n => simp [Ev.isDispatch] at hd

theorem run_cons (e : Ev) (es : List Ev) (s : HubState) :
    run (e :: es) s = run es (step e s) := rfl

theorem run_filled_mono {p : Nat} {es : List Ev} {s : HubState}
    (hes : ∀ e ∈ es, e.isDispatch = false) (h : filledB p s = true) :
    filledB p (run es s) = true := by
  induction es generalizing s with
  | nil => exact h
  | cons e t ih =>
    rw [run_cons]
    exact ih (fun e' he' => hes e' (by simp [he']))
      (step_filled_mono (hes e (by simp)) h)

theorem run_inv {d c : String} {r p tid T dl : Nat} {es : List Ev} {s : HubState}
    (hes : ∀ e ∈ es, e.isDispatch = false) (hI : WaiterInv d c r p tid T dl s) :
    WaiterInv d c r p tid T dl (run es s) := by
  induction es generalizing s with
  | nil => exact hI
  | cons e t ih =>
    rw [run_cons]
    exact ih (fun e' he' => hes e' (by simp [he']))
      (inv_step (hes e (by simp)) hI)

theorem timerFire_fills {d c : String} {r p tid T dl : Nat} {s : HubState}
    (hI : WaiterInv d c r p tid T dl s) :
    filledB p (timerFire tid s) = true := by
  rcases hfb : filledB p s with _ | _
  case true =>
    obtain ⟨v, hv⟩ := filledB_true_iff.mp hfb
    exact filledB_true_iff.mpr ⟨v, timerFire_filled_mono hv tid⟩
  have hs := hI.slotSome
  have hpend : alookup p s.promises = some none := by
    unfold filledB at hfb
    rcases hx : alookup p s.promises with _ | (_ | v)
    · rw [hx] at hs; simp at hs
    · rfl
    · rw [hx] at hfb; simp at hfb
  obtain ⟨t, hlk, htr, htc, htp, htd, htm, htdl, htf⟩ := hI.myTimer
  obtain ⟨inner, hin, tm, hc⟩ := hI.entry hpend
  have h2 : alookup t.ref s.heap = some inner := by rw [htr]; exact hin
  have h3 : alookup t.commandId inner =
      some { commandId := c, deviceId := d, promiseId := p, timeoutMs := tm } := by
    rw [htc]; exact hc
  rw [timerFire_found hlk (htf hpend) h2 h3]
  apply filledB_true_iff.mpr
  refine ⟨timeoutResult t, ?_⟩
  show alookup p (resolveSlot t.promiseId (timeoutResult t) s.promises) = _
  rw [htp]
  exact resolveSlot_self_pending hpend _

theorem run_fills {d c : String} {r p tid T dl : Nat} {es : List Ev} {s : HubState}
    (hes : ∀ e ∈ es, e.isDispatch = false) (hI : WaiterInv d c r p tid T dl s)
    (hmem : Ev.timer tid ∈ es) :
    filledB p (run es s) = true := by
  induction es generalizing s with
  | nil => simp at hmem
  | cons e t ih =>
    rw [run_cons]
    rcases List.mem_cons.mp hmem with he | he
    · subst he
      exact run_filled_mono (fun e' he' => hes e' (by simp [he']))
        (timerFire_fills hI)
    · exact ih (fun e' he' => hes e' (by simp [he'])) (inv_step (hes e (by simp)) hI) he

theorem writesCount_eq {p : Nat} {es : List Ev}
    (hes : ∀ e ∈ es, e.isDispatch = false) (s : HubState) :
    writesCount p es s =
      if filledB p s = false ∧ filledB p (run es s) = true then 1 else 0 := by
  induction es generalizing s with
  | nil => simp [writesCount, run]
  | cons e t ih =>
    have hmono := step_filled_mono (p := p) (s := s) (hes e (by simp))
    unfold writesCount
    rw [ih (fun e' he' => hes e' (by simp [he']))]
    rw [show run (e :: t) s = run t (step e s) from rfl]
    rcases hfs : filledB p s with _ | _
    · rcases hfs' : filledB p (step e s) with _ | _
      · simp [hfs, hfs']
      · have : filledB p (run t (step e s)) = true :=
          run_filled_mono (fun e' he' => hes e' (by simp [he'])) hfs'
        simp [hfs, hfs', this]
    · have h1 : filledB p (step e s) = true := hmono hfs
      have h2 : filledB p (run t (step e s)) = true :=
        run_filled_mono (fun e' he' => hes e' (by simp [he'])) h1
      simp [hfs, h1, h2]

end CmdHub

namespace CmdHub

open HubMap

/-- Well-formedness of a hub state: ids already allocated are below the
allocator, the outer map has no duplicate keys, distinct devices own distinct
inner maps, and every outer binding points at an existing inner map.  It holds
for every state the service can actually reach. -/
structure WFState (s : HubState) : Prop where
  refsBounded : ∀ dr ∈ s.pendingRefs, dr.2 < s.nextId
  pendingNodup : s.pendingRefs.Pairwise (fun a b => a.1 ≠ b.1)
  refsInj : ∀ dr1 ∈ s.pendingRefs, ∀ dr2 ∈ s.pendingRefs, dr1.2 = dr2.2 → dr1.1 = dr2.1
  entriesBounded : ∀ rin ∈ s.heap, ∀ kv ∈ rin.2, kv.2.promiseId < s.nextId
  timersBounded : ∀ tt ∈ s.timers, tt.2.ref < s.nextId ∧ tt.2.promiseId < s.nextId
  refsInHeap : ∀ dr ∈ s.pendingRefs, (alookup dr.2 s.heap).isSome

/-- The correlation id `c` is fresh for device `d`: no live (unfired) timeout
callback already targets the device's current inner map under `c`.  This holds
whenever the caller never reused a still-pending correlation id (the regime
claim C2 steps outside of). -/
def freshCid (s : HubState) (d c : String) : Prop :=
  ∀ tid' t', alookup tid' s.timers = some t' → t'.fired = false →
    t'.commandId = c → alookup d s.pendingRefs ≠ some t'.ref

theorem waitForAck_eq_new {s : HubState} {d : String} (c : String) (T now : Nat)
    (hb : alookup d s.pendingRefs = none) :
    waitForAck d c T now s =
      ({ subs := s.subs,
         pendingRefs := aset d s.nextId s.pendingRefs,
         heap := aset s.nextId
           (aset c { commandId := c, deviceId := d, promiseId := s.nextId + 1,
                     timeoutMs := T }
             ((alookup s.nextId (aset s.nextId ([] : List (String × PendingEntry)) s.heap)).getD []))
           (aset s.nextId ([] : List (String × PendingEntry)) s.heap),
         promises := aset (s.nextId + 1) none s.promises,
         timers := aset (s.nextId + 2)
           { ref := s.nextId, deviceId := d, commandId := c,
             promiseId := s.nextId + 1, deadline := now + T, timeoutMs := T,
             fired := false } s.timers,
         sent := s.sent,
         nextId := s.nextId + 3 }, s.nextId + 1, s.nextId + 2) := by
  unfold waitForAck
  rw [hb]

theorem waitForAck_eq_old {s : HubState} {d : String} {r : Nat} (c : String)
    (T now : Nat) (hb : alookup d s.pendingRefs = some r) :
    waitForAck d c T now s =
      ({ subs := s.subs,
         pendingRefs := s.pendingRefs,
         heap := aset r
           (aset c { commandId := c, deviceId := d, promiseId := s.nextId,
                     timeoutMs := T } ((alookup r s.heap).getD []))
           s.heap,
         promises := aset s.nextId none s.promises,
         timers := aset (s.nextId + 1)
           { ref := r, deviceId := d, commandId := c, promiseId := s.nextId,
             deadline := now + T, timeoutMs := T, fired := false } s.timers,
         sent := s.sent,
         nextId := s.nextId + 2 }, s.nextId, s.nextId + 1) := by
  unfold waitForAck
  rw [hb]

theorem waitForAck_spec {s : HubState} (d c : String) (T now : Nat)
    (hWF : WFState s) (hfresh : freshCid s d c) :
    ∃ r s' p tid, waitForAck d c T now s = (s', p, tid) ∧
      s'.sent = s.sent ∧ s'.subs = s.subs ∧
      alookup p s'.promises = some none ∧
      alookup d s'.pendingRefs = some r ∧
      WaiterInv d c r p tid T (now + T) s' := by
  rcases hb : alookup d s.pendingRefs with _ | r
  -- no inner map yet: a fresh one is created
  · rw [waitForAck_eq_new c T now hb]
    have hinner :
        (alookup s.nextId (aset s.nextId ([] : List (String × PendingEntry)) s.heap)).getD []
          = [] := by rw [alookup_aset_self]; rfl
    refine ⟨s.nextId, _, s.nextId + 1, s.nextId + 2, rfl, rfl, rfl, ?_, ?_, ?_⟩
    · exact alookup_aset_self _ _ _
    · exact alookup_aset_self _ _ _
    · refine ⟨?_, ?_, ?_, ?_, ?_, ?_, ?_, ?_⟩
      · rw [show (alookup (s.nextId + 1) (aset (s.nextId + 1) none s.promises))
            = some none from alookup_aset_self _ _ _]
        rfl
      · intro _
        exact ⟨_, alookup_aset_self _ _ _, T, alookup_aset_self _ _ _⟩
      · intro r' hr'
        rw [show (alookup d (aset d s.nextId s.pendingRefs)) = some s.nextId from
          alookup_aset_self _ _ _] at hr'
        cases hr'
        rfl
      · intro dr hdr hdr2
        rcases mem_aset hdr with h2 | h2
        · rw [h2]
        · have hbd : dr.2 < s.nextId := hWF.refsBounded dr h2
          omega
      · exact pairwise_keys_aset d s.nextId hWF.pendingNodup
      · intro rin hrin kv hkv hpid
        rcases mem_aset hrin with h2 | h2
        · subst h2
          rcases mem_aset hkv with h3 | h3
          · subst h3
            exact ⟨rfl, rfl⟩
          · rw [hinner] at h3
            simp at h3
        · rcases mem_aset h2 with h5 | h5
          · rw [h5] at hkv
            simp at hkv
          · have hbd : kv.2.promiseId < s.nextId := hWF.entriesBounded rin h5 kv hkv
            omega
      · exact ⟨_, alookup_aset_self _ _ _, rfl, rfl, rfl, rfl, rfl, rfl, fun _ => rfl⟩
      · intro tid' t' hne hlk hfired
        rw [alookup_aset_ne hne] at hlk
        have hbd : t'.ref < s.nextId ∧ t'.promiseId < s.nextId :=
          hWF.timersBounded (tid', t') (mem_of_alookup hlk)
        constructor
        · have := hbd.2
          omega
        · rintro ⟨hr, -⟩
          have := hbd.1
          omega
  -- the device already has an inner map `r`
  · have hmem : (d, r) ∈ s.pendingRefs := mem_of_alookup hb
    have hin0 : (alookup r s.heap).isSome := hWF.refsInHeap (d, r) hmem
    rcases hin : alookup r s.heap with _ | inner0
    · rw [hin] at hin0; simp at hin0
    rw [waitForAck_eq_old c T now hb]
    refine ⟨r, _, s.nextId, s.nextId + 1, rfl, rfl, rfl, ?_, ?_, ?_⟩
    · exact alookup_aset_self _ _ _
    · exact hb
    · refine ⟨?_, ?_, ?_, ?_, ?_, ?_, ?_, ?_⟩
      · rw [show (alookup s.nextId (aset s.nextId none s.promises))
            = some none from alookup_aset_self _ _ _]
        rfl
      · intro _
        exact ⟨_, alookup_aset_self _ _ _, T, alookup_aset_self _ _ _⟩
      · intro r' hr'
        rw [hb] at hr'
        cases hr'
        rfl
      · intro dr hdr hdr2
        exact hWF.refsInj dr hdr (d, r) hmem hdr2
      · exact hWF.pendingNodup
      · intro rin hrin kv hkv hpid
        rcases mem_aset hrin with h2 | h2
        · subst h2
          rcases mem_aset hkv with h3 | h3
          · subst h3
            exact ⟨rfl, rfl⟩
          · have h4 : kv ∈ inner0 := by
              rw [hin] at h3
              simpa using h3
            have hbd : kv.2.promiseId < s.nextId :=
              hWF.entriesBounded (r, inner0) (mem_of_alookup hin) kv h4
            omega
        · have hbd : kv.2.promiseId < s.nextId := hWF.entriesBounded rin h2 kv hkv
          omega
      · exact ⟨_, alookup_aset_self _ _ _, rfl, rfl, rfl, rfl, rfl, rfl, fun _ => rfl⟩
      · intro tid' t' hne hlk hfired
        rw [alookup_aset_ne hne] at hlk
        have hbd : t'.ref < s.nextId ∧ t'.promiseId < s.nextId :=
          hWF.timersBounded (tid', t') (mem_of_alookup hlk)
        constructor
        · have := hbd.2
          omega
        · rintro ⟨hr, hc⟩
          exact hfresh tid' t' hlk hfired hc (hr ▸ hb)

theorem sendCommand_eq_registered {s : HubState} {d : String} {pkg : CommandPackage}
    (hsub : alookup d s.subs = some false) (hack : pkg.requiresAck = true)
    (T now : Nat) :
    sendCommand d pkg T now s =
      ((waitForAck d pkg.commandId T now { s with sent := s.sent ++ [(d, pkg)] }).1,
       .registered
         (waitForAck d pkg.commandId T now { s with sent := s.sent ++ [(d, pkg)] }).2.1
         (waitForAck d pkg.commandId T now { s with sent := s.sent ++ [(d, pkg)] }).2.2) := by
  unfold sendCommand
  rw [hsub]
  simp [hack]

theorem wf_sent {s : HubState} (hWF : WFState s) (x : List (String × CommandPackage)) :
    WFState { s with sent := x } :=
  ⟨hWF.refsBounded, hWF.pendingNodup, hWF.refsInj, hWF.entriesBounded,
   hWF.timersBounded, hWF.refsInHeap⟩

theorem filledB_of_pending {p : Nat} {s : HubState}
    (h : alookup p s.promises = some none) : filledB p s = false := by
  unfold filledB
  rw [h]

end CmdHub

namespace CmdHub

open HubMap

/-- C1: For every pending-ack waiter created by an ack-required dispatch
(command publisher, fresh correlation id), the final-result slot is written
exactly once over any sequence of events from the joint space
{terminal ack, timeout firing, device detach/replacement, hub shutdown} —
in any order and combination — provided the waiter's own timeout eventually
fires (JS timers always do).  At-most-once is the promise semantics of the
`resolve` closure; the theorem additionally shows at-least-once, i.e. exactly
one effective write.  The command publisher emits no progress updates at all:
a non-final ack leaves the whole service state unchanged (third conjunct), so
progress updates trivially never follow the final write. -/
theorem claim_C1_final_slot_written_once
    {s0 s1 : HubState} {d : String} {pkg : CommandPackage} {T now p tid : Nat}
    (hWF : WFState s0) (hsub : alookup d s0.subs = some false)
    (hack : pkg.requiresAck = true) (hfresh : freshCid s0 d pkg.commandId)
    (hreg : sendCommand d pkg T now s0 = (s1, .registered p tid))
    (es : List Ev) (hes : ∀ e ∈ es, e.isDispatch = false)
    (hmem : Ev.timer tid ∈ es) :
    writesCount p es s1 = 1 ∧
    s1.sent = s0.sent ++ [(d, pkg)] ∧
    (∀ (s : HubState) (d' c' : String) (st : AckStatus) (msg : Option String),
      st.isFinal = false → acknowledge d' c' st msg s = s) := by
  obtain ⟨r, s', p', tid', heq, hsent, hsubs2, hslot, hbind, hinv⟩ :=
    waitForAck_spec d pkg.commandId T now
      (wf_sent hWF (s0.sent ++ [(d, pkg)])) hfresh
  rw [sendCommand_eq_registered hsub hack T now, heq] at hreg
  simp only [Prod.mk.injEq, SendOutcome.registered.injEq] at hreg
  obtain ⟨hs1, hp, htid⟩ := hreg
  subst hs1; subst hp; subst htid
  refine ⟨?_, hsent, ?_⟩
  · rw [writesCount_eq hes]
    rw [if_pos ⟨filledB_of_pending hslot, run_fills hes hinv hmem⟩]
  · intro s d' c' st msg hst
    exact acknowledge_nonfinal hst d' c' msg s

/-- Witness for C1 at a concrete input: device `"d"` attached, one
ack-required dispatch with correlation id `"c"`, and the single event
"its timeout fires". -/
theorem claim_C1_final_slot_written_once_witness :
    writesCount 1 [Ev.timer 2]
      (sendCommand "d" { commandId := "c", requiresAck := true } 100 0
        (subscribeCommands "d" initState)).1 = 1 ∧
    (sendCommand "d" { commandId := "c", requiresAck := true } 100 0
      (subscribeCommands "d" initState)).1.sent
        = (subscribeCommands "d" initState).sent
            ++ [("d", { commandId := "c", requiresAck := true })] ∧
    (∀ (s : HubState) (d' c' : String) (st : AckStatus) (msg : Option String),
      st.isFinal = false → acknowledge d' c' st msg s = s) := by
  have hWFc : WFState (subscribeCommands "d" initState) := by
    show WFState { subs := [("d", false)], pendingRefs := [], heap := [],
                   promises := [], timers := [], sent := [], nextId := 0 }
    refine ⟨?_, ?_, ?_, ?_, ?_, ?_⟩ <;> simp
  have hfreshc : freshCid (subscribeCommands "d" initState) "d" "c" := by
    intro tid' t' h hf hc
    rw [show (subscribeCommands "d" initState).timers = [] from rfl] at h
    simp at h
  exact @claim_C1_final_slot_written_once (subscribeCommands "d" initState)
    (sendCommand "d" { commandId := "c", requiresAck := true } 100 0
      (subscribeCommands "d" initState)).1
    "d" { commandId := "c", requiresAck := true } 100 0 1 2
    hWFc (by decide) rfl hfreshc (by decide) [Ev.timer 2] (by decide) (by decide)

end CmdHub

namespace CmdHub

open HubMap

/-- State of a registered waiter during the window between the outbound write
and its resolution, while only acknowledgement traffic is processed: the
invariant holds, the slot is still pending, and the outer map still routes the
device to the waiter's inner map. -/
def AckWindow (d c : String) (r p tid T dl : Nat) (s : HubState) : Prop :=
  WaiterInv d c r p tid T dl s ∧
  alookup p s.promises = some none ∧
  alookup d s.pendingRefs = some r

theorem ackWindow_step {d c : String} {r p tid T dl : Nat} {s : HubState}
    {d' c' : String} {st' : AckStatus} {msg' : Option String}
    (hW : AckWindow d c r p tid T dl s)
    (hnf : Ev.isFinalAckFor d c (.ack d' c' st' msg') = false) :
    AckWindow d c r p tid T dl (acknowledge d' c' st' msg' s) := by
  obtain ⟨hI, hslot, hbind⟩ := hW
  have hI' := inv_acknowledge hI d' c' st' msg'
  by_cases hf : st'.isFinal = true
  case neg =>
    rw [acknowledge_nonfinal (Bool.not_eq_true _ ▸ hf)]
    exact ⟨hI, hslot, hbind⟩
  have hne : ¬(d' = d ∧ c' = c) := by
    rintro ⟨rfl, rfl⟩
    simp [Ev.isFinalAckFor, hf] at hnf
  rcases h1 : alookup d' s.pendingRefs with _ | r''
  · rw [acknowledge_noref h1]; exact ⟨hI, hslot, hbind⟩
  rcases h2 : alookup r'' s.heap with _ | inner''
  · rw [acknowledge_noheap h1 h2]; exact ⟨hI, hslot, hbind⟩
  rcases h3 : alookup c' inner'' with _ | e
  · rw [acknowledge_noentry h1 h2 h3]; exact ⟨hI, hslot, hbind⟩
  rw [acknowledge_found hf h1 h2 h3 msg'] at hI' ⊢
  have hep : e.promiseId ≠ p := by
    intro he
    obtain ⟨hr, hc⟩ := hI.promiseUnique (r'', inner'') (mem_of_alookup h2)
      (c', e) (mem_of_alookup h3) he
    have hdd : d' = d := hI.routeOthers (d', r'') (mem_of_alookup h1) hr
    exact hne ⟨hdd, hc⟩
  refine ⟨hI', ?_, ?_⟩
  · show alookup p (resolveSlot e.promiseId _ s.promises) = some none
    rw [resolveSlot_other (Ne.symm hep)]
    exact hslot
  · obtain ⟨inner, hin, tm, hc⟩ := hI.entry hslot
    show alookup d (if aerase c' inner'' = [] then aerase d' s.pendingRefs
                    else s.pendingRefs) = some r
    split
    · next hemp =>
      by_cases hdd : d' = d
      · exfalso
        subst hdd
        rw [h1] at hbind
        cases hbind
        rw [hin] at h2
        cases h2
        have hcc : c ≠ c' := by
          intro he
          exact hne ⟨rfl, he.symm⟩
        have hlc : alookup c (aerase c' inner'') =
            some { commandId := c, deviceId := d', promiseId := p, timeoutMs := tm } := by
          rw [alookup_aerase_ne hcc]; exact hc
        rw [hemp] at hlc
        simp at hlc
      · rw [alookup_aerase_ne (fun he => hdd he.symm)]
        exact hbind
    · exact hbind

end CmdHub

namespace CmdHub

open HubMap

theorem ackWindow_run {d c : String} {r p tid T dl : Nat} {es : List Ev}
    {s : HubState}
    (hes : ∀ e ∈ es, e.isAck = true ∧ e.isFinalAckFor d c = false)
    (hW : AckWindow d c r p tid T dl s) :
    AckWindow d c r p tid T dl (run es s) := by
  induction es generalizing s with
  | nil => exact hW
  | cons e t ih =>
    rw [run_cons]
    obtain ⟨ha, hnf⟩ := hes e (by simp)
    refine ih (fun e' he' => hes e' (by simp [he'])) ?_
    cases e with
    | ack d' c' st' msg' => exact ackWindow_step hW hnf
    | unsub d' => simp [Ev.isAck] at ha
    | attach d' => simp [Ev.isAck] at ha
    | shutdown => simp [Ev.isAck] at ha
    | timer tid' => simp [Ev.isAck] at ha
    | dispatch d' pkg T' n => simp [Ev.isAck] at ha

theorem ackWindow_final_ack {d c : String} {r p tid T dl : Nat} {s : HubState}
    (hW : AckWindow d c r p tid T dl s) {st : AckStatus}
    (hst : st.isFinal = true) (msg : Option String) :
    alookup p (acknowledge d c st msg s).promises =
      some (some { success := ackSuccess st, commandId := c, deviceId := d,
                   errorMessage := msg, timedOut := false }) := by
  obtain ⟨hI, hslot, hbind⟩ := hW
  obtain ⟨inner, hin, tm, hc⟩ := hI.entry hslot
  rw [acknowledge_found hst hbind hin hc msg]
  show alookup p (resolveSlot _ _ s.promises) = _
  exact resolveSlot_self_pending hslot _

/-- C4: the outbound write and the waiter registration are one atomic step of
`sendCommand` (no suspension point between `stream$.next` and the `Promise`
executor), so there is no state in which the frame is written but the waiter
is missing — the first two conjuncts.  Consequently any terminal
acknowledgement processed after the dispatch and before the waiter's timeout
fires (modelled by a run of acknowledgement events none of which is a terminal
ack for this correlation id, followed by the terminal ack) is routed to the
waiter's result slot. -/
theorem claim_C4_ack_after_write_reaches_waiter
    {s0 s1 : HubState} {d : String} {pkg : CommandPackage} {T now p tid : Nat}
    (hWF : WFState s0) (hsub : alookup d s0.subs = some false)
    (hack : pkg.requiresAck = true) (hfresh : freshCid s0 d pkg.commandId)
    (hreg : sendCommand d pkg T now s0 = (s1, .registered p tid))
    (es : List Ev)
    (hes : ∀ e ∈ es, e.isAck = true ∧ e.isFinalAckFor d pkg.commandId = false)
    {st : AckStatus} (hst : st.isFinal = true) (msg : Option String) :
    s1.sent = s0.sent ++ [(d, pkg)] ∧
    alookup p s1.promises = some none ∧
    alookup p (acknowledge d pkg.commandId st msg (run es s1)).promises =
      some (some { success := ackSuccess st, commandId := pkg.commandId,
                   deviceId := d, errorMessage := msg, timedOut := false }) := by
  obtain ⟨r, s', p', tid', heq, hsent, hsubs2, hslot, hbind, hinv⟩ :=
    waitForAck_spec d pkg.commandId T now
      (wf_sent hWF (s0.sent ++ [(d, pkg)])) hfresh
  rw [sendCommand_eq_registered hsub hack T now, heq] at hreg
  simp only [Prod.mk.injEq, SendOutcome.registered.injEq] at hreg
  obtain ⟨hs1, hp, htid⟩ := hreg
  subst hs1; subst hp; subst htid
  refine ⟨hsent, hslot, ?_⟩
  exact ackWindow_final_ack
    (ackWindow_run hes ⟨hinv, hslot, hbind⟩) hst msg

end CmdHub

namespace CmdHub

open HubMap

/-- Witness for C4: device `"d"` attached, ack-required dispatch `"c"`, one
progress ack in the window, then the terminal `completed` ack. -/
theorem claim_C4_ack_after_write_reaches_waiter_witness :
    (sendCommand "d" { commandId := "c", requiresAck := true } 100 0
      (subscribeCommands "d" initState)).1.sent
        = (subscribeCommands "d" initState).sent
            ++ [("d", { commandId := "c", requiresAck := true })] ∧
    alookup 1 (sendCommand "d" { commandId := "c", requiresAck := true } 100 0
      (subscribeCommands "d" initState)).1.promises = some none ∧
    alookup 1 (acknowledge "d" "c" .completed none
      (run [Ev.ack "d" "c" .received none]
        (sendCommand "d" { commandId := "c", requiresAck := true } 100 0
          (subscribeCommands "d" initState)).1)).promises =
      some (some { success := ackSuccess .completed, commandId := "c",
                   deviceId := "d", errorMessage := none, timedOut := false }) := by
  have hWFc : WFState (subscribeCommands "d" initState) := by
    show WFState { subs := [("d", false)], pendingRefs := [], heap := [],
                   promises := [], timers := [], sent := [], nextId := 0 }
    refine ⟨?_, ?_, ?_, ?_, ?_, ?_⟩ <;> simp
  have hfreshc : freshCid (subscribeCommands "d" initState) "d" "c" := by
    intro tid' t' h hf hc
    rw [show (subscribeCommands "d" initState).timers = [] from rfl] at h
    simp at h
  exact @claim_C4_ack_after_write_reaches_waiter (subscribeCommands "d" initState)
    (sendCommand "d" { commandId := "c", requiresAck := true } 100 0
      (subscribeCommands "d" initState)).1
    "d" { commandId := "c", requiresAck := true } 100 0 1 2
    hWFc (by decide) rfl hfreshc (by decide)
    [Ev.ack "d" "c" .received none] (by decide) .completed (by decide) none

/-- C5: if the waiter sees only acknowledgement events that are never a
terminal ack for its correlation id (progress acks included), then (i) the
timer's deadline is still registration time + budget — progress acks never
extend it; (ii) when the timeout fires the waiter resolves with a timed-out
failure result; (iii) the waiter's entry is removed from the pending-ack
table; (iv) any later ack for that correlation id — terminal or not — is
dropped, leaving the state unchanged. -/
theorem claim_C5_timeout_resolves_and_drops_late_acks
    {s0 s1 : HubState} {d : String} {pkg : CommandPackage} {T now p tid : Nat}
    (hWF : WFState s0) (hsub : alookup d s0.subs = some false)
    (hack : pkg.requiresAck = true) (hfresh : freshCid s0 d pkg.commandId)
    (hreg : sendCommand d pkg T now s0 = (s1, .registered p tid))
    (es : List Ev)
    (hes : ∀ e ∈ es, e.isAck = true ∧ e.isFinalAckFor d pkg.commandId = false) :
    (∃ t, alookup tid (run es s1).timers = some t ∧
      t.deadline = now + T ∧ t.fired = false) ∧
    alookup p (timerFire tid (run es s1)).promises =
      some (some { success := false, commandId := pkg.commandId, deviceId := d,
                   errorMessage := some ("ACK timeout after " ++ toString T ++ "ms"),
                   timedOut := true }) ∧
    (∀ r' inner, alookup d (timerFire tid (run es s1)).pendingRefs = some r' →
      alookup r' (timerFire tid (run es s1)).heap = some inner →
      alookup pkg.commandId inner = none) ∧
    (∀ (st' : AckStatus) (msg' : Option String),
      acknowledge d pkg.commandId st' msg' (timerFire tid (run es s1)) =
        timerFire tid (run es s1)) := by
  obtain ⟨r, s', p', tid', heq, hsent, hsubs2, hslot, hbind, hinv⟩ :=
    waitForAck_spec d pkg.commandId T now
      (wf_sent hWF (s0.sent ++ [(d, pkg)])) hfresh
  rw [sendCommand_eq_registered hsub hack T now, heq] at hreg
  simp only [Prod.mk.injEq, SendOutcome.registered.injEq] at hreg
  obtain ⟨hs1, hp, htid⟩ := hreg
  subst hs1; subst hp; subst htid
  obtain ⟨hinv2, hslot2, hbind2⟩ := ackWindow_run hes ⟨hinv, hslot, hbind⟩
  obtain ⟨t, hlk, htr, htc, htp, htd, htm, htdl, htf⟩ := hinv2.myTimer
  have hunfired : t.fired = false := htf hslot2
  obtain ⟨inner, hin, tm, hc⟩ := hinv2.entry hslot2
  have h2 : alookup t.ref (run es s').heap = some inner := by rw [htr]; exact hin
  have h3 : alookup t.commandId inner =
      some { commandId := pkg.commandId, deviceId := d, promiseId := p',
             timeoutMs := tm } := by rw [htc]; exact hc
  have hfire := timerFire_found hlk hunfired h2 h3
  refine ⟨⟨t, hlk, htdl, hunfired⟩, ?_, ?_, ?_⟩
  · rw [hfire]
    show alookup p' (resolveSlot t.promiseId (timeoutResult t) _) = _
    rw [htp, resolveSlot_self_pending hslot2]
    have : timeoutResult t =
        { success := false, commandId := pkg.commandId, deviceId := d,
          errorMessage := some ("ACK timeout after " ++ toString T ++ "ms"),
          timedOut := true } := by
      unfold timeoutResult
      rw [htc, htd, htm]
    rw [this]
  · intro r' innerX hr' hin'
    rw [hfire] at hr' hin'
    revert hr'
    show alookup d (if aerase t.commandId inner = [] then _ else _) = some r' → _
    split
    · intro hr'
      rw [htd] at hr'
      rw [alookup_aerase_self] at hr'
      simp at hr'
    · intro hr'
      rw [hbind2] at hr'
      cases hr'
      have : alookup r (aset t.ref (aerase t.commandId inner) (run es s').heap)
          = some (aerase t.commandId inner) := by
        rw [htr]
        exact alookup_aset_self _ _ _
      rw [this] at hin'
      cases hin'
      rw [htc]
      exact alookup_aerase_self _ _
  · intro st' msg'
    by_cases hf' : st'.isFinal = true
    · rcases hx : alookup d (timerFire tid' (run es s')).pendingRefs with _ | r0
      · exact acknowledge_noref hx _ _ _
      · have hr0 : r0 = r := by
          rw [hfire] at hx
          revert hx
          show alookup d (if aerase t.commandId inner = [] then _ else _) = some r0 → _
          split
          · intro hx
            rw [htd, alookup_aerase_self] at hx
            simp at hx
          · intro hx
            rw [hbind2] at hx
            cases hx
            rfl
        subst hr0
        have hh : alookup r0 (timerFire tid' (run es s')).heap
            = some (aerase t.commandId inner) := by
          rw [hfire]
          show alookup r0 (aset t.ref (aerase t.commandId inner) _) = _
          rw [htr]
          exact alookup_aset_self _ _ _
        have hnone : alookup pkg.commandId (aerase t.commandId inner) = none := by
          rw [htc]
          exact alookup_aerase_self _ _
        exact acknowledge_noentry hx hh hnone _ _
    · exact acknowledge_nonfinal (Bool.not_eq_true _ ▸ hf') _ _ _ _

end CmdHub

namespace CmdHub

open HubMap

/-- Witness for C5: device `"d"` attached, dispatch `"c"` with a 100 ms
budget, one progress ack, then the timeout fires. -/
theorem claim_C5_timeout_witness :
    (∃ t, alookup 2 (run [Ev.ack "d" "c" .received none]
        (sendCommand "d" { commandId := "c", requiresAck := true } 100 0
          (subscribeCommands "d" initState)).1).timers = some t ∧
      t.deadline = 0 + 100 ∧ t.fired = false) ∧
    alookup 1 (timerFire 2 (run [Ev.ack "d" "c" .received none]
        (sendCommand "d" { commandId := "c", requiresAck := true } 100 0
          (subscribeCommands "d" initState)).1)).promises =
      some (some { success := false, commandId := "c", deviceId := "d",
                   errorMessage := some ("ACK timeout after " ++ toString 100 ++ "ms"),
                   timedOut := true }) ∧
    (∀ r' inner, alookup "d" (timerFire 2 (run [Ev.ack "d" "c" .received none]
        (sendCommand "d" { commandId := "c", requiresAck := true } 100 0
          (subscribeCommands "d" initState)).1)).pendingRefs = some r' →
      alookup r' (timerFire 2 (run [Ev.ack "d" "c" .received none]
        (sendCommand "d" { commandId := "c", requiresAck := true } 100 0
          (subscribeCommands "d" initState)).1)).heap = some inner →
      alookup "c" inner = none) ∧
    (∀ (st' : AckStatus) (msg' : Option String),
      acknowledge "d" "c" st' msg' (timerFire 2 (run [Ev.ack "d" "c" .received none]
        (sendCommand "d" { commandId := "c", requiresAck := true } 100 0
          (subscribeCommands "d" initState)).1)) =
        timerFire 2 (run [Ev.ack "d" "c" .received none]
          (sendCommand "d" { commandId := "c", requiresAck := true } 100 0
            (subscribeCommands "d" initState)).1)) := by
  have hWFc : WFState (subscribeCommands "d" initState) := by
    show WFState { subs := [("d", false)], pendingRefs := [], heap := [],
                   promises := [], timers := [], sent := [], nextId := 0 }
    refine ⟨?_, ?_, ?_, ?_, ?_, ?_⟩ <;> simp
  have hfreshc : freshCid (subscribeCommands "d" initState) "d" "c" := by
    intro tid' t' h hf hc
    rw [show (subscribeCommands "d" initState).timers = [] from rfl] at h
    simp at h
  exact @claim_C5_timeout_resolves_and_drops_late_acks
    (subscribeCommands "d" initState)
    (sendCommand "d" { commandId := "c", requiresAck := true } 100 0
      (subscribeCommands "d" initState)).1
    "d" { commandId := "c", requiresAck := true } 100 0 1 2
    hWFc (by decide) rfl hfreshc (by decide)
    [Ev.ack "d" "c" .received none] (by decide)

end CmdHub

namespace HubMap

variable {κ : Type} {β : Type} [DecidableEq κ]

theorem aerase_idem (k : κ) (l : List (κ × β)) :
    aerase k (aerase k l) = aerase k l := by
  induction l with
  | nil => rfl
  | cons kv t ih =>
    obtain ⟨k', v⟩ := kv
    rw [aerase_cons]
    by_cases h : k' = k
    · rw [if_pos h, ih]
    · rw [if_neg h, aerase_cons, if_neg h, ih]

theorem aerase_aset_self (k : κ) (v : β) (l : List (κ × β)) :
    aerase k (aset k v l) = aerase k l := by
  rw [aset, aerase_cons, if_pos rfl, aerase_idem]

end HubMap

namespace CmdHub

open HubMap

/-- C2 counterexample at a concrete input: device `"d"` attached, two
ack-required dispatches with the same correlation id `"c"` and a 100 ms
budget, then: the first dispatch's timeout fires, the device's terminal ack
arrives, the second dispatch's timeout fires.  The first waiter's slot holds a
`Timeout` result (`timedOut := true`), not a `Cancelled` resolution, and the
second waiter's slot is never written at all — its ack was dropped because the
first timeout callback had already removed the shared table entry.  This
refutes both "the old waiter is resolved as Cancelled" and "the newer waiter
is unaffected by the older one's timeout". -/
theorem claim_C2_counterexample :
    alookup 1 (run [Ev.dispatch "d" { commandId := "c", requiresAck := true } 100 0,
        Ev.dispatch "d" { commandId := "c", requiresAck := true } 100 10,
        Ev.timer 2, Ev.ack "d" "c" .completed none, Ev.timer 4]
      (subscribeCommands "d" initState)).promises =
      some (some { success := false, commandId := "c", deviceId := "d",
                   errorMessage := some "ACK timeout after 100ms",
                   timedOut := true }) ∧
    filledB 3 (run [Ev.dispatch "d" { commandId := "c", requiresAck := true } 100 0,
        Ev.dispatch "d" { commandId := "c", requiresAck := true } 100 10,
        Ev.timer 2, Ev.ack "d" "c" .completed none, Ev.timer 4]
      (subscribeCommands "d" initState)) = false := by
  decide

end CmdHub

namespace CmdHub

open HubMap

/-- C2 amended: registering a second waiter for the same `(device, correlation
id)` pair overwrites the table entry but does **not** resolve the old waiter —
there is no `Cancelled` resolution.  The old waiter's still-scheduled timeout
later fires, resolves the *old* promise with a `Timeout` result, and removes
the *new* waiter's entry; the new waiter's terminal ack is then dropped and
its own timeout finds no entry, so the new waiter's slot is never written.
(Shown from the attached-device initial state for arbitrary device id,
correlation id, budget and dispatch times; ids 1/2 are the first waiter's
promise/timer, 3/4 the second's.) -/
theorem claim_C2_duplicate_registration_amended (d c : String) (T now1 now2 : Nat)
    (msg : Option String) :
    alookup 1 (run [Ev.dispatch d { commandId := c, requiresAck := true } T now1,
        Ev.dispatch d { commandId := c, requiresAck := true } T now2]
      (subscribeCommands d initState)).promises = some none ∧
    alookup 3 (run [Ev.dispatch d { commandId := c, requiresAck := true } T now1,
        Ev.dispatch d { commandId := c, requiresAck := true } T now2]
      (subscribeCommands d initState)).promises = some none ∧
    alookup 1 (run [Ev.dispatch d { commandId := c, requiresAck := true } T now1,
        Ev.dispatch d { commandId := c, requiresAck := true } T now2, Ev.timer 2]
      (subscribeCommands d initState)).promises =
      some (some { success := false, commandId := c, deviceId := d,
                   errorMessage := some ("ACK timeout after " ++ toString T ++ "ms"),
                   timedOut := true }) ∧
    alookup 3 (run [Ev.dispatch d { commandId := c, requiresAck := true } T now1,
        Ev.dispatch d { commandId := c, requiresAck := true } T now2, Ev.timer 2,
        Ev.ack d c .completed msg, Ev.timer 4]
      (subscribeCommands d initState)).promises = some none := by
  have hsub0 : alookup d (subscribeCommands d initState).subs = some false := by
    show alookup d [(d, false)] = some false
    rw [alookup_cons, if_pos rfl]
  have h1 : sendCommand d { commandId := c, requiresAck := true } T now1
      (subscribeCommands d initState) =
      ({ subs := [(d, false)], pendingRefs := [(d, 0)],
         heap := [(0, [(c, { commandId := c, deviceId := d, promiseId := 1,
                             timeoutMs := T })])],
         promises := [(1, none)],
         timers := [(2, { ref := 0, deviceId := d, commandId := c, promiseId := 1,
                          deadline := now1 + T, timeoutMs := T, fired := false })],
         sent := [(d, { commandId := c, requiresAck := true })],
         nextId := 3 }, .registered 1 2) := by
    have hb0 : alookup d ({ subscribeCommands d initState with
        sent := (subscribeCommands d initState).sent
          ++ [(d, { commandId := c, requiresAck := true })] } : HubState).pendingRefs
        = none := rfl
    rw [sendCommand_eq_registered hsub0 rfl, waitForAck_eq_new c T now1 hb0]
    rfl
  set S1 : HubState :=
    { subs := [(d, false)], pendingRefs := [(d, 0)],
      heap := [(0, [(c, { commandId := c, deviceId := d, promiseId := 1,
                          timeoutMs := T })])],
      promises := [(1, none)],
      timers := [(2, { ref := 0, deviceId := d, commandId := c, promiseId := 1,
                       deadline := now1 + T, timeoutMs := T, fired := false })],
      sent := [(d, { commandId := c, requiresAck := true })],
      nextId := 3 } with hS1def
  have hsub1 : alookup d S1.subs = some false := by
    show alookup d [(d, false)] = some false
    rw [alookup_cons, if_pos rfl]
  have hb1 : alookup d ({ S1 with
      sent := S1.sent ++ [(d, { commandId := c, requiresAck := true })] } : HubState).pendingRefs
      = some 0 := by
    show alookup d [(d, 0)] = some 0
    rw [alookup_cons, if_pos rfl]
  have h2 : sendCommand d { commandId := c, requiresAck := true } T now2 S1 =
      ({ subs := [(d, false)], pendingRefs := [(d, 0)],
         heap := aset 0 (aset c { commandId := c, deviceId := d, promiseId := 3,
                                  timeoutMs := T }
             [(c, { commandId := c, deviceId := d, promiseId := 1, timeoutMs := T })])
           [(0, [(c, { commandId := c, deviceId := d, promiseId := 1, timeoutMs := T })])],
         promises := aset 3 none [(1, none)],
         timers := aset 4 { ref := 0, deviceId := d, commandId := c, promiseId := 3,
                            deadline := now2 + T, timeoutMs := T, fired := false }
           [(2, { ref := 0, deviceId := d, commandId := c, promiseId := 1,
                  deadline := now1 + T, timeoutMs := T, fired := false })],
         sent := [(d, { commandId := c, requiresAck := true }),
                  (d, { commandId := c, requiresAck := true })],
         nextId := 5 }, .registered 3 4) := by
    rw [sendCommand_eq_registered hsub1 rfl, waitForAck_eq_old c T now2 hb1]
    rfl
  set E1 : PendingEntry :=
    { commandId := c, deviceId := d, promiseId := 1, timeoutMs := T } with hE1
  set E2 : PendingEntry :=
    { commandId := c, deviceId := d, promiseId := 3, timeoutMs := T } with hE2
  set rec1 : TimerRec :=
    { ref := 0, deviceId := d, commandId := c, promiseId := 1,
      deadline := now1 + T, timeoutMs := T, fired := false } with hrec1
  set rec2 : TimerRec :=
    { ref := 0, deviceId := d, commandId := c, promiseId := 3,
      deadline := now2 + T, timeoutMs := T, fired := false } with hrec2
  set S2 : HubState :=
    { subs := [(d, false)], pendingRefs := [(d, 0)],
      heap := aset 0 (aset c E2 [(c, E1)]) [(0, [(c, E1)])],
      promises := aset 3 none [(1, none)],
      timers := aset 4 rec2 [(2, rec1)],
      sent := [(d, { commandId := c, requiresAck := true }),
               (d, { commandId := c, requiresAck := true })],
      nextId := 5 } with hS2def
  have hrun2 : run [Ev.dispatch d { commandId := c, requiresAck := true } T now1,
      Ev.dispatch d { commandId := c, requiresAck := true } T now2]
      (subscribeCommands d initState) = S2 := by
    show (sendCommand d { commandId := c, requiresAck := true } T now2
      (sendCommand d { commandId := c, requiresAck := true } T now1
        (subscribeCommands d initState)).1).1 = S2
    rw [h1]
    show (sendCommand d { commandId := c, requiresAck := true } T now2 S1).1 = S2
    rw [h2]
  have hS2p1 : alookup 1 S2.promises = some none := by
    show alookup 1 (aset 3 none [(1, none)]) = some none
    rw [alookup_aset_ne (by decide : (1 : Nat) ≠ 3)]
    rfl
  have hS2p3 : alookup 3 S2.promises = some none := by
    show alookup 3 (aset 3 none [(1, none)]) = some none
    exact alookup_aset_self _ _ _
  refine ⟨by rw [hrun2]; exact hS2p1, by rw [hrun2]; exact hS2p3, ?_, ?_⟩
  all_goals {
    have hlk2 : alookup 2 S2.timers = some rec1 := by
      show alookup 2 (aset 4 rec2 [(2, rec1)]) = some rec1
      rw [alookup_aset_ne (by decide : (2 : Nat) ≠ 4)]
      rfl
    have hh : alookup rec1.ref S2.heap = some (aset c E2 [(c, E1)]) := by
      show alookup 0 (aset 0 (aset c E2 [(c, E1)]) [(0, [(c, E1)])]) = _
      exact alookup_aset_self _ _ _
    have he : alookup rec1.commandId (aset c E2 [(c, E1)]) = some E2 := by
      show alookup c (aset c E2 [(c, E1)]) = some E2
      exact alookup_aset_self _ _ _
    have hempty : aerase rec1.commandId (aset c E2 [(c, E1)]) = [] := by
      show aerase c (aset c E2 [(c, E1)]) = []
      rw [aerase_aset_self, aerase_cons, if_pos rfl]
      rfl
    have hfire := timerFire_found hlk2 rfl hh he
    rw [hempty] at hfire
    simp only [if_pos rfl] at hfire
    first
    | -- conjunct (iii): the old waiter resolves Timeout
      (rw [show run [Ev.dispatch d { commandId := c, requiresAck := true } T now1,
            Ev.dispatch d { commandId := c, requiresAck := true } T now2, Ev.timer 2]
            (subscribeCommands d initState)
          = timerFire 2 S2 by
            show timerFire 2 (run [Ev.dispatch d { commandId := c, requiresAck := true } T now1,
              Ev.dispatch d { commandId := c, requiresAck := true } T now2]
              (subscribeCommands d initState)) = _
            rw [hrun2]]
       rw [hfire]
       show alookup 1 (resolveSlot rec1.promiseId (timeoutResult rec1) S2.promises) = _
       rw [show rec1.promiseId = 1 from rfl, resolveSlot_self_pending hS2p1]
       rfl)
    | -- conjunct (iv): the new waiter's slot is never written
      (rw [show run [Ev.dispatch d { commandId := c, requiresAck := true } T now1,
            Ev.dispatch d { commandId := c, requiresAck := true } T now2, Ev.timer 2,
            Ev.ack d c .completed msg, Ev.timer 4] (subscribeCommands d initState)
          = timerFire 4 (acknowledge d c .completed msg (timerFire 2 S2)) by
            show timerFire 4 (acknowledge d c .completed msg (timerFire 2
              (run [Ev.dispatch d { commandId := c, requiresAck := true } T now1,
                Ev.dispatch d { commandId := c, requiresAck := true } T now2]
                (subscribeCommands d initState)))) = _
            rw [hrun2]]
       have hnoref : alookup d (timerFire 2 S2).pendingRefs = none := by
         rw [hfire]
         show alookup d (aerase rec1.deviceId [(d, 0)]) = none
         rw [show rec1.deviceId = d from rfl]
         exact alookup_aerase_self _ _
       rw [acknowledge_noref hnoref]
       have hlk4 : alookup 4 (timerFire 2 S2).timers = some rec2 := by
         rw [hfire]
         show alookup 4 (aset 2 { rec1 with fired := true } (aset 4 rec2 [(2, rec1)])) = _
         rw [alookup_aset_ne (by decide : (4 : Nat) ≠ 2)]
         exact alookup_aset_self _ _ _
       have hh4 : alookup rec2.ref (timerFire 2 S2).heap = some [] := by
         rw [hfire]
         show alookup 0 (aset rec1.ref ([] : List (String × PendingEntry)) S2.heap) = _
         rw [show rec1.ref = 0 from rfl]
         exact alookup_aset_self _ _ _
       have he4 : alookup rec2.commandId ([] : List (String × PendingEntry)) = none := rfl
       rw [timerFire_noentry hlk4 rfl hh4 he4]
       show alookup 3 (timerFire 2 S2).promises = some none
       rw [hfire]
       show alookup 3 (resolveSlot rec1.promiseId (timeoutResult rec1) S2.promises) = _
       rw [show rec1.promiseId = 1 from rfl,
           resolveSlot_other (by decide : (3 : Nat) ≠ 1)]
       exact hS2p3)
  }

end CmdHub

namespace CmdHub

open HubMap

/-- C3 counterexample at a concrete input: device `"d"` attaches, an
ack-required dispatch `"c1"` is in flight, the device re-attaches
(replacement), a new dispatch `"c2"` is sent on the fresh session, then the
*replaced* waiter's stale timeout fires, the device's terminal `Completed` ack
for `"c2"` arrives well before `"c2"`'s own deadline, and finally `"c2"`'s
timeout fires.  The first waiter correctly resolves `Disconnected`, but the
stale timeout callback deleted the device's *fresh* pending-ack binding, so
the ack is dropped and the new dispatch resolves `Timeout` — refuting "a
subsequent ack-required dispatch to the same device proceeds normally". -/
theorem claim_C3_counterexample :
    alookup 1 (run [Ev.dispatch "d" { commandId := "c1", requiresAck := true } 100 0,
        Ev.attach "d",
        Ev.dispatch "d" { commandId := "c2", requiresAck := true } 100 60,
        Ev.timer 2, Ev.ack "d" "c2" .completed none, Ev.timer 5]
      (subscribeCommands "d" initState)).promises =
      some (some { success := false, commandId := "c1", deviceId := "d",
                   errorMessage := some "Device disconnected", timedOut := false }) ∧
    alookup 4 (run [Ev.dispatch "d" { commandId := "c1", requiresAck := true } 100 0,
        Ev.attach "d",
        Ev.dispatch "d" { commandId := "c2", requiresAck := true } 100 60,
        Ev.timer 2, Ev.ack "d" "c2" .completed none, Ev.timer 5]
      (subscribeCommands "d" initState)).promises =
      some (some { success := false, commandId := "c2", deviceId := "d",
                   errorMessage := some "ACK timeout after 100ms",
                   timedOut := true }) := by
  decide

/-- C3 amended: attaching while a session exists replaces it — the old sink is
completed, whereupon the controller's complete handler runs `unsubscribe`:
every pending waiter of the device resolves with a `Disconnected` result, the
device's pending-ack binding is removed (zero pending waiters on the fresh
session), and a fresh open session is installed.  A subsequent ack-required
dispatch proceeds normally *provided* no replaced waiter's stale timeout fires
between the new registration and its terminal ack (last conjunct shows the
normal interleaving at a concrete input; the counterexample shows the stale
interleaving timing the new dispatch out). -/
theorem claim_C3_replacement_amended
    {s : HubState} {d : String} {b : Bool} {r : Nat}
    {inner : List (String × PendingEntry)} {c' : String} {e : PendingEntry}
    (hs : alookup d s.subs = some b)
    (hb : alookup d s.pendingRefs = some r)
    (hin : alookup r s.heap = some inner)
    (hc : alookup c' inner = some e)
    (hslot : alookup e.promiseId s.promises = some none)
    (huniq : ∀ kv ∈ inner, kv.2.promiseId = e.promiseId → kv.1 = c') :
    alookup d (subscribeCommands d s).subs = some false ∧
    alookup d (subscribeCommands d s).pendingRefs = none ∧
    alookup e.promiseId (subscribeCommands d s).promises =
      some (some (disconnectedResult e)) ∧
    alookup 4 (run [Ev.dispatch "d" { commandId := "c1", requiresAck := true } 100 0,
        Ev.attach "d",
        Ev.dispatch "d" { commandId := "c2", requiresAck := true } 100 60,
        Ev.ack "d" "c2" .completed none, Ev.timer 2, Ev.timer 5]
      (subscribeCommands "d" initState)).promises =
      some (some { success := true, commandId := "c2", deviceId := "d",
                   errorMessage := none, timedOut := false }) := by
  have hcond : (alookup d s.subs).isSome = true := by rw [hs]; rfl
  have hrepl : subscribeCommands d s =
      { unsubscribe d s with subs := aset d false (unsubscribe d s).subs } := by
    unfold subscribeCommands
    rw [if_pos hcond]
  rw [hrepl, unsubscribe_ref hb]
  refine ⟨?_, ?_, ?_, by decide⟩
  · exact alookup_aset_self _ _ _
  · exact alookup_aerase_self _ _
  · show alookup e.promiseId
      (resolveAll disconnectedResult ((alookup r s.heap).getD []) s.promises) = _
    rw [hin]
    exact resolveAll_hit_exact disconnectedResult hc rfl hslot huniq

/-- Witness for the amended C3 at a concrete input: device `"d"` attached with
one in-flight waiter for `"c1"`, then the device re-attaches. -/
theorem claim_C3_replacement_amended_witness :
    alookup "d" (subscribeCommands "d"
      (sendCommand "d" { commandId := "c1", requiresAck := true } 100 0
        (subscribeCommands "d" initState)).1).subs = some false ∧
    alookup "d" (subscribeCommands "d"
      (sendCommand "d" { commandId := "c1", requiresAck := true } 100 0
        (subscribeCommands "d" initState)).1).pendingRefs = none ∧
    alookup 1 (subscribeCommands "d"
      (sendCommand "d" { commandId := "c1", requiresAck := true } 100 0
        (subscribeCommands "d" initState)).1).promises =
      some (some (disconnectedResult
        { commandId := "c1", deviceId := "d", promiseId := 1, timeoutMs := 100 })) ∧
    alookup 4 (run [Ev.dispatch "d" { commandId := "c1", requiresAck := true } 100 0,
        Ev.attach "d",
        Ev.dispatch "d" { commandId := "c2", requiresAck := true } 100 60,
        Ev.ack "d" "c2" .completed none, Ev.timer 2, Ev.timer 5]
      (subscribeCommands "d" initState)).promises =
      some (some { success := true, commandId := "c2", deviceId := "d",
                   errorMessage := none, timedOut := false }) :=
  @claim_C3_replacement_amended
    (sendCommand "d" { commandId := "c1", requiresAck := true } 100 0
      (subscribeCommands "d" initState)).1
    "d" false 0 [("c1", { commandId := "c1", deviceId := "d", promiseId := 1,
                          timeoutMs := 100 })]
    "c1" { commandId := "c1", deviceId := "d", promiseId := 1, timeoutMs := 100 }
    (by decide) (by decide) (by decide) (by decide) (by decide) (by decide)

end CmdHub

namespace CmdHub

open HubMap

theorem waitForAck_sent (d c : String) (T now : Nat) (s : HubState) :
    (waitForAck d c T now s).1.sent = s.sent := by
  rcases hb : alookup d s.pendingRefs with _ | r
  · rw [waitForAck_eq_new c T now hb]
  · rw [waitForAck_eq_old c T now hb]

theorem sendCommand_sent_or (d : String) (pkg : CommandPackage) (T now : Nat)
    (s : HubState) :
    (sendCommand d pkg T now s).1.sent = s.sent ∨
    (sendCommand d pkg T now s).1.sent = s.sent ++ [(d, pkg)] := by
  rcases h : alookup d s.subs with _ | closed
  · left
    show (sendCommand d pkg T now s).1.sent = s.sent
    unfold sendCommand
    rw [h]
  · rcases closed with _ | _
    · rcases hr : pkg.requiresAck with _ | _
      · right
        show (sendCommand d pkg T now s).1.sent = s.sent ++ [(d, pkg)]
        unfold sendCommand
        rw [h, hr]
        rfl
      · right
        show (sendCommand d pkg T now s).1.sent = s.sent ++ [(d, pkg)]
        unfold sendCommand
        rw [h, hr]
        exact waitForAck_sent d pkg.commandId T now _
    · left
      show (sendCommand d pkg T now s).1.sent = s.sent
      unfold sendCommand
      rw [h]
      rfl

theorem broadcastCommand_def (pkg : CommandPackage) (T now : Nat) (s : HubState) :
    broadcastCommand pkg T now s =
      s.subs.foldl
        (fun acc db => if db.2 then acc
          else ((sendCommand db.1 pkg T now acc.1).1,
                acc.2 ++ [(sendCommand db.1 pkg T now acc.1).2]))
        (s, []) := rfl

theorem broadcastCommand_sent (pkg : CommandPackage) (T now : Nat) (s : HubState) :
    ∀ x ∈ (broadcastCommand pkg T now s).1.sent, x ∈ s.sent ∨ x.2 = pkg := by
  rw [broadcastCommand_def]
  have key : ∀ (l : List (String × Bool)) (acc : HubState × List SendOutcome),
      (∀ x ∈ acc.1.sent, x ∈ s.sent ∨ x.2 = pkg) →
      ∀ x ∈ (l.foldl
          (fun acc db => if db.2 then acc
            else ((sendCommand db.1 pkg T now acc.1).1,
                  acc.2 ++ [(sendCommand db.1 pkg T now acc.1).2])) acc).1.sent,
        x ∈ s.sent ∨ x.2 = pkg := by
    intro l
    induction l with
    | nil => exact fun acc h => h
    | cons db t ih =>
      intro acc h
      rw [List.foldl_cons]
      by_cases hdb : db.2 = true
      · rw [if_pos hdb]
        exact ih acc h
      · rw [if_neg hdb]
        refine ih _ ?_
        intro x hx
        rcases sendCommand_sent_or db.1 pkg T now acc.1 with hs1 | hs1
        · rw [hs1] at hx
          exact h x hx
        · rw [hs1] at hx
          rcases List.mem_append.mp hx with h2 | h2
          · exact h x h2
          · simp at h2
            exact Or.inr (by rw [h2])
  exact key s.subs (s, []) (fun x hx => Or.inl hx)

end CmdHub

namespace FleetSvc

open HubMap

/-- The frame builder passed by `FleetService.rotateScreenFleet` to
`broadcastCommand`: its correlation id is stamped from the fleet id and
`Date.now()` only — the `deviceId` parameter of the builder is ignored.
(The rotate payload itself is opaque to the dispatch engine and omitted.) -/
def rotateFleetBuilder (fleetId : String) (now : Nat) (_deviceId : String) :
    CmdHub.CommandPackage :=
  { commandId := "rotate-fleet-" ++ fleetId ++ "-" ++ toString now,
    requiresAck := true }

end FleetSvc

namespace CmdHub

open HubMap

/-- C7 counterexample at a concrete input: broadcasting one command package to
the two attached devices `"a"` and `"b"` delivers the *same* correlation id to
both — the delivered ids are not pairwise distinct — and the fleet rotate
frame-builder produces identical frames for two different devices observing
the same timestamp. -/
theorem claim_C7_counterexample :
    ((broadcastCommand { commandId := "cid-1", requiresAck := true } 100 0
        (subscribeCommands "b" (subscribeCommands "a" initState))).1.sent.map
      (fun x => x.2.commandId)) = ["cid-1", "cid-1"] ∧
    ¬ (((broadcastCommand { commandId := "cid-1", requiresAck := true } 100 0
        (subscribeCommands "b" (subscribeCommands "a" initState))).1.sent.map
      (fun x => x.2.commandId)).Pairwise (fun a b => a ≠ b)) ∧
    FleetSvc.rotateFleetBuilder "f" 5 "a" = FleetSvc.rotateFleetBuilder "f" 5 "b" := by
  refine ⟨by decide, ?_, by decide⟩
  intro h
  rw [show ((broadcastCommand { commandId := "cid-1", requiresAck := true } 100 0
      (subscribeCommands "b" (subscribeCommands "a" initState))).1.sent.map
    (fun x => x.2.commandId)) = ["cid-1", "cid-1"] from by decide] at h
  rcases List.pairwise_cons.mp h with ⟨h1, -⟩
  exact h1 "cid-1" (by simp) rfl

/-- C7 amended: correlation ids delivered by a fan-out are *not* pairwise
distinct in general.  `broadcastCommand` writes the very same package — hence
the same correlation id — to every device (every frame it appends to the
outbound log carries the input package), and the fleet rotate builder ignores
its device-id parameter, so any two builder invocations observing the same
timestamp produce the same id. -/
theorem claim_C7_shared_correlation_ids_amended
    (pkg : CommandPackage) (T now : Nat) (s : HubState) :
    (∀ x ∈ (broadcastCommand pkg T now s).1.sent, x ∈ s.sent ∨ x.2 = pkg) ∧
    (∀ (fleetId : String) (t : Nat) (d1 d2 : String),
      FleetSvc.rotateFleetBuilder fleetId t d1 = FleetSvc.rotateFleetBuilder fleetId t d2) := by
  exact ⟨broadcastCommand_sent pkg T now s, fun _ _ _ _ => rfl⟩

end CmdHub

namespace FleetSvc

open HubMap

/-- The `FleetCommandResult` aggregate of `FleetService.broadcastCommand`
(`FleetBroadcastResult` plus the collected per-device `AckResult`s). -/
structure FleetCommandResult where
  fleetId : String
  targetDevices : Nat
  successful : Nat
  failed : Nat
  failures : List (String × String)
  ackResults : List CmdHub.AckResult
deriving DecidableEq, Repr

/-- `FleetService.broadcastCommand(fleetId, commandBuilder, timeoutMs)`.

If the fleet id is unknown the source throws `Fleet ... not found` before any
send — modelled as an `Except.error` returned with the hub state untouched.
Otherwise it loops over the members, building a frame per device and awaiting
`commandPublisher.sendCommand` for each; `oracle dev p` abstracts the value
the awaited promise `p` of a registered dispatch eventually resolves to
(claims C1/C4/C5 govern that resolution).  Every per-device outcome —
not-connected, timeout, device-reported failure, disconnect — lands in
`ackResults`/`failures` as data; the aggregate itself is always `ok`. -/
def broadcastCommandFleet
    (fleets : List (String × List String)) (fleetId : String)
    (builder : String → CmdHub.CommandPackage) (timeoutMs now : Nat)
    (oracle : String → Nat → CmdHub.AckResult)
    (s : CmdHub.HubState) :
    Except String FleetCommandResult × CmdHub.HubState :=
  match alookup fleetId fleets with
  | none => (.error ("Fleet " ++ fleetId ++ " not found"), s)
  | some members =>
    let res := members.foldl
      (fun (acc : FleetCommandResult × CmdHub.HubState) dev =>
        let pkg := builder dev
        let step := CmdHub.sendCommand dev pkg timeoutMs now acc.2
        let ackResult :=
          match step.2 with
          | .immediate r => r
          | .registered p _ => oracle dev p
        let r1 := { acc.1 with ackResults := acc.1.ackResults ++ [ackResult] }
        let r2 := if ackResult.success then { r1 with successful := r1.successful + 1 } else { r1 with failed := r1.failed + 1, failures := r1.failures ++ [(dev, ackResult.errorMessage.getD "Command failed")] }
        (r2, step.1))
      ({ fleetId := fleetId, targetDevices := members.length, successful := 0,
         failed := 0, failures := [], ackResults := [] }, s)
    (.ok res.1, res.2)

/-- C8: a fan-out to an unknown group id is the only failure surfaced
out-of-band: the call errors with `Fleet ... not found` if and only if the
fleet is missing, and in that case the hub state — in particular the outbound
log — is untouched (no writes happened).  When the fleet exists the aggregate
is always `ok`, with one in-band per-device result per member and
`successful + failed = members`, for *every* oracle of per-device outcomes —
individual device failures never fail the aggregate. -/
theorem claim_C8_groupnotfound_only_out_of_band
    (fleets : List (String × List String)) (fleetId : String)
    (builder : String → CmdHub.CommandPackage) (T now : Nat)
    (oracle : String → Nat → CmdHub.AckResult) (s : CmdHub.HubState) :
    ((broadcastCommandFleet fleets fleetId builder T now oracle s).1 =
        Except.error ("Fleet " ++ fleetId ++ " not found") ↔
      alookup fleetId fleets = none) ∧
    (alookup fleetId fleets = none →
      (broadcastCommandFleet fleets fleetId builder T now oracle s).2 = s) ∧
    (∀ members, alookup fleetId fleets = some members →
      ∃ res, (broadcastCommandFleet fleets fleetId builder T now oracle s).1 =
          Except.ok res ∧
        res.targetDevices = members.length ∧
        res.ackResults.length = members.length ∧
        res.successful + res.failed = members.length) := by
  have key : ∀ (l : List String) (acc : FleetCommandResult × CmdHub.HubState),
      (l.foldl
        (fun (acc : FleetCommandResult × CmdHub.HubState) dev =>
          let pkg := builder dev
          let step := CmdHub.sendCommand dev pkg T now acc.2
          let ackResult :=
            match step.2 with
            | .immediate r => r
            | .registered p _ => oracle dev p
          let r1 := { acc.1 with ackResults := acc.1.ackResults ++ [ackResult] }
          let r2 := if ackResult.success then { r1 with successful := r1.successful + 1 } else { r1 with failed := r1.failed + 1, failures := r1.failures ++ [(dev, ackResult.errorMessage.getD "Command failed")] }
          (r2, step.1)) acc).1.ackResults.length
        = acc.1.ackResults.length + l.length ∧
      (l.foldl
        (fun (acc : FleetCommandResult × CmdHub.HubState) dev =>
          let pkg := builder dev
          let step := CmdHub.sendCommand dev pkg T now acc.2
          let ackResult :=
            match step.2 with
            | .immediate r => r
            | .registered p _ => oracle dev p
          let r1 := { acc.1 with ackResults := acc.1.ackResults ++ [ackResult] }
          let r2 := if ackResult.success then { r1 with successful := r1.successful + 1 } else { r1 with failed := r1.failed + 1, failures := r1.failures ++ [(dev, ackResult.errorMessage.getD "Command failed")] }
          (r2, step.1)) acc).1.successful
        + (l.foldl
        (fun (acc : FleetCommandResult × CmdHub.HubState) dev =>
          let pkg := builder dev
          let step := CmdHub.sendCommand dev pkg T now acc.2
          let ackResult :=
            match step.2 with
            | .immediate r => r
            | .registered p _ => oracle dev p
          let r1 := { acc.1 with ackResults := acc.1.ackResults ++ [ackResult] }
          let r2 := if ackResult.success then { r1 with successful := r1.successful + 1 } else { r1 with failed := r1.failed + 1, failures := r1.failures ++ [(dev, ackResult.errorMessage.getD "Command failed")] }
          (r2, step.1)) acc).1.failed
        = acc.1.successful + acc.1.failed + l.length ∧
      (l.foldl
        (fun (acc : FleetCommandResult × CmdHub.HubState) dev =>
          let pkg := builder dev
          let step := CmdHub.sendCommand dev pkg T now acc.2
          let ackResult :=
            match step.2 with
            | .immediate r => r
            | .registered p _ => oracle dev p
          let r1 := { acc.1 with ackResults := acc.1.ackResults ++ [ackResult] }
          let r2 := if ackResult.success then { r1 with successful := r1.successful + 1 } else { r1 with failed := r1.failed + 1, failures := r1.failures ++ [(dev, ackResult.errorMessage.getD "Command failed")] }
          (r2, step.1)) acc).1.targetDevices
        = acc.1.targetDevices := by
    intro l
    induction l with
    | nil => intro acc; exact ⟨by simp, by simp, rfl⟩
    | cons dev t ih =>
      intro acc
      rw [List.foldl_cons]
      obtain ⟨ih1, ih2, ih3⟩ := ih _
      refine ⟨?_, ?_, ?_⟩
      · rw [ih1]
        by_cases hsucc : (match (CmdHub.sendCommand dev (builder dev) T now acc.2).2 with
            | .immediate r => r
            | .registered p _ => oracle dev p).success = true
        · simp only [hsucc, if_true]
          simp [List.length_append]
          omega
        · simp only [Bool.not_eq_true] at hsucc
          simp only [hsucc]
          simp [List.length_append]
          omega
      · rw [ih2]
        by_cases hsucc : (match (CmdHub.sendCommand dev (builder dev) T now acc.2).2 with
            | .immediate r => r
            | .registered p _ => oracle dev p).success = true
        · simp only [hsucc, if_true]
          simp
          omega
        · simp only [Bool.not_eq_true] at hsucc
          simp only [hsucc]
          simp
          omega
      · rw [ih3]
        by_cases hsucc : (match (CmdHub.sendCommand dev (builder dev) T now acc.2).2 with
            | .immediate r => r
            | .registered p _ => oracle dev p).success = true
        · simp only [hsucc, if_true]
        · simp only [Bool.not_eq_true] at hsucc
          simp [hsucc]
  rcases hf : alookup fleetId fleets with _ | members
  · refine ⟨?_, ?_, ?_⟩
    · constructor
      · intro _; rfl
      · intro _
        show (broadcastCommandFleet fleets fleetId builder T now oracle s).1 = _
        unfold broadcastCommandFleet
        rw [hf]
    · intro _
      show (broadcastCommandFleet fleets fleetId builder T now oracle s).2 = s
      unfold broadcastCommandFleet
      rw [hf]
    · intro members hm
      cases hm
  · have hok : (broadcastCommandFleet fleets fleetId builder T now oracle s).1 =
        Except.ok (members.foldl
          (fun (acc : FleetCommandResult × CmdHub.HubState) dev =>
            let pkg := builder dev
            let step := CmdHub.sendCommand dev pkg T now acc.2
            let ackResult :=
              match step.2 with
              | .immediate r => r
              | .registered p _ => oracle dev p
            let r1 := { acc.1 with ackResults := acc.1.ackResults ++ [ackResult] }
            let r2 := if ackResult.success then { r1 with successful := r1.successful + 1 } else { r1 with failed := r1.failed + 1, failures := r1.failures ++ [(dev, ackResult.errorMessage.getD "Command failed")] }
            (r2, step.1))
          ({ fleetId := fleetId, targetDevices := members.length, successful := 0,
             failed := 0, failures := [], ackResults := [] }, s)).1 := by
      unfold broadcastCommandFleet
      rw [hf]
    refine ⟨?_, ?_, ?_⟩
    · constructor
      · intro h
        rw [hok] at h
        cases h
      · intro h
        cases h
    · intro h
      cases h
    · intro members' hm
      cases hm
      obtain ⟨k1, k2, k3⟩ := key members
        ({ fleetId := fleetId, targetDevices := members.length, successful := 0,
           failed := 0, failures := [], ackResults := [] }, s)
      refine ⟨_, hok, ?_, ?_, ?_⟩
      · rw [k3]
      · rw [k1]
        simp
      · rw [k2]
        simp

end FleetSvc

namespace FleetSvc

open HubMap

/-- Witness for C8 at concrete inputs: the fleet table contains only `"f"`
with members `"a"`, `"b"`; a fan-out to `"ghost"` errors with the hub
untouched, and a fan-out to `"f"` returns an in-band aggregate. -/
theorem claim_C8_groupnotfound_witness :
    (broadcastCommandFleet [("f", ["a", "b"])] "ghost"
        (fun dv => { commandId := "cid-" ++ dv, requiresAck := true }) 100 0
        (fun _ _ => { success := false, commandId := "cid", deviceId := "dev",
                      errorMessage := some "ACK timeout after 100ms",
                      timedOut := true })
        CmdHub.initState).2 = CmdHub.initState ∧
    (∃ res, (broadcastCommandFleet [("f", ["a", "b"])] "f"
        (fun dv => { commandId := "cid-" ++ dv, requiresAck := true }) 100 0
        (fun _ _ => { success := false, commandId := "cid", deviceId := "dev",
                      errorMessage := some "ACK timeout after 100ms",
                      timedOut := true })
        CmdHub.initState).1 = Except.ok res ∧
      res.targetDevices = 2 ∧ res.ackResults.length = 2 ∧
      res.successful + res.failed = 2) := by
  constructor
  · exact (claim_C8_groupnotfound_only_out_of_band [("f", ["a", "b"])] "ghost"
      (fun dv => { commandId := "cid-" ++ dv, requiresAck := true }) 100 0
      (fun _ _ => { success := false, commandId := "cid", deviceId := "dev",
                    errorMessage := some "ACK timeout after 100ms",
                    timedOut := true })
      CmdHub.initState).2.1 (by decide)
  · obtain ⟨res, h1, h2, h3, h4⟩ :=
      (claim_C8_groupnotfound_only_out_of_band [("f", ["a", "b"])] "f"
        (fun dv => { commandId := "cid-" ++ dv, requiresAck := true }) 100 0
        (fun _ _ => { success := false, commandId := "cid", deviceId := "dev",
                      errorMessage := some "ACK timeout after 100ms",
                      timedOut := true })
        CmdHub.initState).2.2 ["a", "b"] (by decide)
    exact ⟨res, h1, h2, h3, h4⟩

end FleetSvc

namespace ContentHub

open HubMap

/-- `AcknowledgeStatus` of `src/generated/content/v1/content`; `partlyFailed`
models `ACKNOWLEDGE_STATUS_PARTIAL` (some media failed). -/
inductive CAckStatus
  | unspecified
  | received
  | inProgress
  | completed
  | partlyFailed
  | failed
deriving DecidableEq, Repr

/-- Final statuses checked by `ContentPublisherService.acknowledge`
(COMPLETED, PARTIAL, FAILED). -/
def CAckStatus.isFinal : CAckStatus → Bool
  | .completed => true
  | .partlyFailed => true
  | .failed => true
  | _ => false

/-- Only COMPLETED maps to `success = true`. -/
def cackSuccess : CAckStatus → Bool
  | .completed => true
  | _ => false

/-- The `ContentProgress` payload forwarded on progress updates. -/
structure ContentProgress where
  percentComplete : Nat
  totalMediaCount : Nat
  completedMediaCount : Nat
  failedMediaCount : Nat
deriving DecidableEq, Repr

/-- The `ProgressUpdate` interface of `content-publisher.service.ts`. -/
structure ProgressUpdate where
  isFinal : Bool
  status : CAckStatus
  success : Option Bool
  deliveryId : String
  deviceId : String
  errorMessage : Option String
  progress : Option ContentProgress
  timedOut : Bool
deriving DecidableEq, Repr

/-- The content `AckResult`. -/
structure CAckResult where
  success : Bool
  deliveryId : String
  deviceId : String
  errorMessage : Option String
  timedOut : Bool
deriving DecidableEq, Repr

/-- A `ContentPackage` as far as the publisher inspects it. -/
structure ContentPackage where
  deliveryId : String
  requiresAck : Bool
deriving DecidableEq, Repr

/-- Where a pending entry's `resolve`/`onProgress` closures deliver.
`slot p` is a unary `waitForAck` promise; `progressSink g` is a streaming
`waitForAckWithProgress` registration whose `onProgress` appends to log `g`
and whose `resolve` is the no-op closure of the source. -/
inductive Sink
  | slot (p : Nat)
  | progressSink (g : Nat)
deriving DecidableEq, Repr

structure CPendingEntry where
  deliveryId : String
  deviceId : String
  sink : Sink
  timeoutMs : Nat
deriving DecidableEq, Repr

structure CTimerRec where
  ref : Nat
  deliveryId : String
  deviceId : String
  sink : Sink
  deadline : Nat
  timeoutMs : Nat
  fired : Bool
deriving DecidableEq, Repr

/-- State of `ContentPublisherService`, structured like `CmdHub.HubState`,
plus `logs`: the sequences of `ProgressUpdate`s emitted to each streaming
consumer. -/
structure CState where
  subs : List (String × Bool)
  pendingRefs : List (String × Nat)
  heap : List (Nat × List (String × CPendingEntry))
  promises : List (Nat × Option CAckResult)
  logs : List (Nat × List ProgressUpdate)
  timers : List (Nat × CTimerRec)
  sent : List (String × ContentPackage)
  nextId : Nat
deriving DecidableEq, Repr

def cinit : CState :=
  { subs := [], pendingRefs := [], heap := [], promises := [], logs := [],
    timers := [], sent := [], nextId := 0 }

def cresolveSlot (p : Nat) (v : CAckResult) (pr : List (Nat × Option CAckResult)) :
    List (Nat × Option CAckResult) :=
  match alookup p pr with
  | some none => aset p (some v) pr
  | _ => pr

/-- Run an entry's `resolve` closure: a unary waiter's promise is settled; a
streaming waiter's `resolve` does nothing (the source's comment: "Resolve is
called, progress callback already handled final state"). -/
def cresolveSink (sink : Sink) (v : CAckResult)
    (pr : List (Nat × Option CAckResult)) : List (Nat × Option CAckResult) :=
  match sink with
  | .slot p => cresolveSlot p v pr
  | .progressSink _ => pr

def cdisconnectedResult (e : CPendingEntry) : CAckResult :=
  { success := false, deliveryId := e.deliveryId, deviceId := e.deviceId,
    errorMessage := some "Device disconnected", timedOut := false }

/-- `ContentPublisherService.unsubscribe`. -/
def cunsubscribe (d : String) (s : CState) : CState :=
  let s1 := { s with subs := aerase d s.subs }
  match alookup d s1.pendingRefs with
  | none => s1
  | some r =>
    { s1 with
      promises := ((alookup r s1.heap).getD []).foldl
        (fun pr kv => cresolveSink kv.2.sink (cdisconnectedResult kv.2) pr)
        s1.promises,
      pendingRefs := aerase d s1.pendingRefs }

/-- The composed attach path `ContentController.subscribe` +
`ContentPublisherService.subscribe`. -/
def csubscribe (d : String) (s : CState) : CState :=
  let s1 := if (alookup d s.subs).isSome then cunsubscribe d s else s
  { s1 with subs := aset d false s1.subs }

/-- Run an entry's `onProgress` callback if it has one: a streaming waiter
appends the update to its log; a unary waiter has no callback. -/
def cemitLog (sink : Sink) (did d : String) (st : CAckStatus)
    (msg : Option String) (prog : Option ContentProgress)
    (logs : List (Nat × List ProgressUpdate)) : List (Nat × List ProgressUpdate) :=
  match sink with
  | .progressSink g =>
    aset g ((alookup g logs).getD [] ++
      [{ isFinal := st.isFinal, status := st,
         success := if st.isFinal then some (cackSuccess st) else none,
         deliveryId := did, deviceId := d, errorMessage := msg,
         progress := prog, timedOut := false }]) logs
  | .slot _ => logs

/-- `ContentPublisherService.acknowledge(deviceId, deliveryId, status,
message, progress)`: look up the waiter; if it has an `onProgress` callback,
emit an update (final or not); on a final status run `resolve` and delete the
entry. -/
def cacknowledge (d did : String) (st : CAckStatus) (msg : Option String)
    (prog : Option ContentProgress) (s : CState) : CState :=
  match alookup d s.pendingRefs with
  | none => s
  | some r =>
    match alookup r s.heap with
    | none => s
    | some inner =>
      match alookup did inner with
      | none => s
      | some e =>
        let s1 := { s with logs := cemitLog e.sink did d st msg prog s.logs }
        if st.isFinal then
          { s1 with
            promises := cresolveSink e.sink
              { success := cackSuccess st, deliveryId := did, deviceId := d,
                errorMessage := msg, timedOut := false } s1.promises,
            heap := aset r (aerase did inner) s1.heap,
            pendingRefs := if aerase did inner = [] then aerase d s1.pendingRefs
                           else s1.pendingRefs }
        else s1

def ctimeoutResult (t : CTimerRec) : CAckResult :=
  { success := false, deliveryId := t.deliveryId, deviceId := t.deviceId,
    errorMessage := some ("ACK timeout after " ++ toString t.timeoutMs ++ "ms"),
    timedOut := true }

def ctimeoutUpdate (t : CTimerRec) : ProgressUpdate :=
  { isFinal := true, status := .failed, success := some false,
    deliveryId := t.deliveryId, deviceId := t.deviceId,
    errorMessage := some ("ACK timeout after " ++ toString t.timeoutMs ++ "ms"),
    progress := none, timedOut := true }

/-- A content timeout callback (from `waitForAck` or
`waitForAckWithProgress`): delete the entry if still present, then either
settle the promise or emit a final timed-out update. -/
def ctimerFire (tid : Nat) (s : CState) : CState :=
  match alookup tid s.timers with
  | none => s
  | some t =>
    if t.fired then s
    else
      let s1 := { s with timers := aset tid { t with fired := true } s.timers }
      match alookup t.ref s1.heap with
      | none => s1
      | some inner =>
        match alookup t.deliveryId inner with
        | none => s1
        | some _ =>
          let inner' := aerase t.deliveryId inner
          let s2 := { s1 with
            heap := aset t.ref inner' s1.heap,
            pendingRefs := if inner' = [] then aerase t.deviceId s1.pendingRefs
                           else s1.pendingRefs }
          match t.sink with
          | .slot p => { s2 with promises := cresolveSlot p (ctimeoutResult t) s2.promises }
          | .progressSink g =>
            { s2 with logs := aset g ((alookup g s2.logs).getD [] ++
                [ctimeoutUpdate t]) s2.logs }

/-- What `publishToDeviceStream` hands back to its consumer. -/
inductive StreamOutcome
  | closedStream (u : ProgressUpdate)
  | live (g : Nat)
deriving DecidableEq, Repr

/-- `publishToDeviceStream(deviceId, contentPackage, timeoutMs)`, including
the `waitForAckWithProgress` registration performed when the consumer
subscribes: not-connected and no-ack-required cases yield a single-event
closed stream; otherwise a progress log `g`, the pending entry and the
timeout are installed and the live stream `g` is returned. -/
def notConnectedUpdate (d did : String) : ProgressUpdate :=
  { isFinal := true, status := .failed, success := some false,
    deliveryId := did, deviceId := d,
    errorMessage := some "Device not connected", progress := none,
    timedOut := false }

def noAckNeededUpdate (d did : String) : ProgressUpdate :=
  { isFinal := true, status := .completed, success := some true,
    deliveryId := did, deviceId := d, errorMessage := none, progress := none,
    timedOut := false }

def publishToDeviceStream (d : String) (pkg : ContentPackage) (T now : Nat)
    (s : CState) : CState × StreamOutcome :=
  match alookup d s.subs with
  | none => (s, .closedStream (notConnectedUpdate d pkg.deliveryId))
  | some closed =>
    if closed then
      (s, .closedStream (notConnectedUpdate d pkg.deliveryId))
    else
      let s1 := { s with sent := s.sent ++ [(d, pkg)] }
      if pkg.requiresAck then
        let g := s1.nextId
        let s2 := { s1 with logs := aset g [] s1.logs, nextId := s1.nextId + 1 }
        let rs := match alookup d s2.pendingRefs with
          | some r => (r, s2)
          | none =>
            (s2.nextId,
             { s2 with
               heap := aset s2.nextId [] s2.heap,
               pendingRefs := aset d s2.nextId s2.pendingRefs,
               nextId := s2.nextId + 1 })
        let inner := (alookup rs.1 rs.2.heap).getD []
        let s4 := { rs.2 with
          heap := aset rs.1 (aset pkg.deliveryId
            { deliveryId := pkg.deliveryId, deviceId := d,
              sink := .progressSink g, timeoutMs := T } inner) rs.2.heap }
        let s5 := { s4 with
          timers := aset s4.nextId
            { ref := rs.1, deliveryId := pkg.deliveryId, deviceId := d,
              sink := .progressSink g, deadline := now + T, timeoutMs := T,
              fired := false } s4.timers,
          nextId := s4.nextId + 1 }
        (s5, .live g)
      else
        (s1, .closedStream (noAckNeededUpdate d pkg.deliveryId))

/-- The teardown function the streaming observable returns on consumer
cancellation.  Its body in the source is empty — the comment reads "Pending
ack will be cleaned up by timeout" — so cancellation changes nothing. -/
def cancelStream (s : CState) : CState := s

end ContentHub

namespace ContentHub

open HubMap

theorem cack_noref {d : String} {s : CState}
    (h1 : alookup d s.pendingRefs = none) (did : String) (st : CAckStatus)
    (msg : Option String) (prog : Option ContentProgress) :
    cacknowledge d did st msg prog s = s := by
  unfold cacknowledge
  rw [h1]

theorem cack_noheap {d : String} {s : CState} {r : Nat}
    (h1 : alookup d s.pendingRefs = some r) (h2 : alookup r s.heap = none)
    (did : String) (st : CAckStatus) (msg : Option String)
    (prog : Option ContentProgress) :
    cacknowledge d did st msg prog s = s := by
  unfold cacknowledge
  simp [h1, h2]

theorem cack_noentry {d did : String} {s : CState} {r : Nat}
    {m : List (String × CPendingEntry)}
    (h1 : alookup d s.pendingRefs = some r) (h2 : alookup r s.heap = some m)
    (h3 : alookup did m = none) (st : CAckStatus) (msg : Option String)
    (prog : Option ContentProgress) :
    cacknowledge d did st msg prog s = s := by
  unfold cacknowledge
  simp [h1, h2, h3]

theorem cack_found {d did : String} {s : CState} {r : Nat}
    {inner : List (String × CPendingEntry)} {e : CPendingEntry} {st : CAckStatus}
    (hf : st.isFinal = true)
    (h1 : alookup d s.pendingRefs = some r) (h2 : alookup r s.heap = some inner)
    (h3 : alookup did inner = some e) (msg : Option String)
    (prog : Option ContentProgress) :
    cacknowledge d did st msg prog s =
      { s with
        logs := cemitLog e.sink did d st msg prog s.logs,
        promises := cresolveSink e.sink
          { success := cackSuccess st, deliveryId := did, deviceId := d,
            errorMessage := msg, timedOut := false } s.promises,
        heap := aset r (aerase did inner) s.heap,
        pendingRefs := if aerase did inner = [] then aerase d s.pendingRefs
                       else s.pendingRefs } := by
  unfold cacknowledge
  simp only [h1, h2, h3, hf, if_true]

theorem ctimerFire_none {tid : Nat} {s : CState}
    (h : alookup tid s.timers = none) : ctimerFire tid s = s := by
  unfold ctimerFire
  rw [h]

theorem ctimerFire_fired {tid : Nat} {s : CState} {t : CTimerRec}
    (h : alookup tid s.timers = some t) (hf : t.fired = true) :
    ctimerFire tid s = s := by
  unfold ctimerFire
  simp [h, hf]

theorem ctimerFire_marks {tid : Nat} {s : CState} {t : CTimerRec}
    (h : alookup tid s.timers = some t) (hf : t.fired = false) :
    alookup tid (ctimerFire tid s).timers = some { t with fired := true } := by
  unfold ctimerFire
  rcases h2 : alookup t.ref ({ s with timers := aset tid { t with fired := true } s.timers } : CState).heap with _ | inner
  · simp [h, hf, h2]
  rcases h3 : alookup t.deliveryId inner with _ | e
  · simp [h, hf, h2, h3]
  rcases hsink : t.sink with p | g
  · simp [h, hf, h2, h3, hsink]
  · simp [h, hf, h2, h3, hsink]

/-- C6 counterexample at a concrete input: device `"d"` attached to content,
streaming ack-required dispatch `"D1"` registered (live stream with log 0,
pending entry in inner map 1, timeout timer 2).  Consumer cancellation before
any terminal event leaves the state completely unchanged: the dispatch's
waiter is *not* removed from the pending-ack table, refuting the claim. -/
theorem claim_C6_counterexample :
    (publishToDeviceStream "d" { deliveryId := "D1", requiresAck := true } 100 0
      (csubscribe "d" cinit)).2 = .live 0 ∧
    cancelStream (publishToDeviceStream "d"
        { deliveryId := "D1", requiresAck := true } 100 0
        (csubscribe "d" cinit)).1 =
      (publishToDeviceStream "d" { deliveryId := "D1", requiresAck := true } 100 0
        (csubscribe "d" cinit)).1 ∧
    alookup 1 (cancelStream (publishToDeviceStream "d"
        { deliveryId := "D1", requiresAck := true } 100 0
        (csubscribe "d" cinit)).1).heap =
      some [("D1", { deliveryId := "D1", deviceId := "d",
                     sink := .progressSink 0, timeoutMs := 100 })] := by
  decide

/-- C6 amended: consumer cancellation of the progress stream does *not*
remove the waiter — the observable's teardown body is empty, so cancellation
leaves the service state unchanged; the waiter is cleaned up by the terminal
ack or by its timeout, and that removal is idempotent: delivering the same
terminal ack a second time is a no-op, as is a second firing of the timeout.
The cancelled consumer's log still receives exactly the one final timed-out
update when the timeout backstop fires (last conjunct, concrete input). -/
theorem claim_C6_cancellation_amended :
    (∀ s : CState, cancelStream s = s) ∧
    (∀ (d did : String) (st : CAckStatus) (msg : Option String)
        (prog : Option ContentProgress) (s : CState), st.isFinal = true →
      cacknowledge d did st msg prog (cacknowledge d did st msg prog s) =
        cacknowledge d did st msg prog s) ∧
    (∀ (tid : Nat) (s : CState),
      ctimerFire tid (ctimerFire tid s) = ctimerFire tid s) ∧
    alookup 0 (ctimerFire 2 (cancelStream
      (publishToDeviceStream "d" { deliveryId := "D1", requiresAck := true } 100 0
        (csubscribe "d" cinit)).1)).logs =
      some [ctimeoutUpdate { ref := 1, deliveryId := "D1", deviceId := "d", sink := .progressSink 0, deadline := 100, timeoutMs := 100, fired := false }] := by
  refine ⟨fun _ => rfl, ?_, ?_, by decide⟩
  · intro d did st msg prog s hf
    rcases h1 : alookup d s.pendingRefs with _ | r
    · rw [cack_noref h1, cack_noref h1]
    rcases h2 : alookup r s.heap with _ | inner
    · rw [cack_noheap h1 h2, cack_noheap h1 h2]
    rcases h3 : alookup did inner with _ | e
    · rw [cack_noentry h1 h2 h3, cack_noentry h1 h2 h3]
    rw [cack_found hf h1 h2 h3 msg prog]
    by_cases hemp : aerase did inner = []
    · refine cack_noref ?_ did st msg prog
      show alookup d (if aerase did inner = [] then aerase d s.pendingRefs
        else s.pendingRefs) = none
      rw [if_pos hemp]
      exact alookup_aerase_self _ _
    · refine cack_noentry (r := r) (m := aerase did inner) ?_ ?_ ?_ st msg prog
      · show alookup d (if aerase did inner = [] then aerase d s.pendingRefs
          else s.pendingRefs) = some r
        rw [if_neg hemp]
        exact h1
      · show alookup r (aset r (aerase did inner) s.heap) = some (aerase did inner)
        exact alookup_aset_self _ _ _
      · exact alookup_aerase_self _ _
  · intro tid s
    rcases h : alookup tid s.timers with _ | t
    · rw [ctimerFire_none h, ctimerFire_none h]
    rcases hfd : t.fired with _ | _
    case true => rw [ctimerFire_fired h hfd, ctimerFire_fired h hfd]
    exact ctimerFire_fired (ctimerFire_marks h hfd) rfl

/-- Witness for the amended C6 at concrete inputs: the registered streaming
waiter for `"D1"`, a duplicated terminal ack, and a duplicated timeout
firing. -/
theorem claim_C6_cancellation_amended_witness :
    cacknowledge "d" "D1" .completed none none
        (cacknowledge "d" "D1" .completed none none
          (publishToDeviceStream "d" { deliveryId := "D1", requiresAck := true }
            100 0 (csubscribe "d" cinit)).1) =
      cacknowledge "d" "D1" .completed none none
        (publishToDeviceStream "d" { deliveryId := "D1", requiresAck := true }
          100 0 (csubscribe "d" cinit)).1 ∧
    ctimerFire 2 (ctimerFire 2
        (publishToDeviceStream "d" { deliveryId := "D1", requiresAck := true }
          100 0 (csubscribe "d" cinit)).1) =
      ctimerFire 2
        (publishToDeviceStream "d" { deliveryId := "D1", requiresAck := true }
          100 0 (csubscribe "d" cinit)).1 :=
  ⟨claim_C6_cancellation_amended.2.1 "d" "D1" .completed none none
    (publishToDeviceStream "d" { deliveryId := "D1", requiresAck := true }
      100 0 (csubscribe "d" cinit)).1 (by decide),
   claim_C6_cancellation_amended.2.2.1 2
    (publishToDeviceStream "d" { deliveryId := "D1", requiresAck := true }
      100 0 (csubscribe "d" cinit)).1⟩

end ContentHub

/-!
## Analytics ingestion

Two embeddings: `IngestV2` models the bytes-based analytics service
(`AnalyticsService.ingest`/`processBatch`/`processEvent` working over
`Uint8Array` ids and CBOR payloads), with the CBOR decoder abstracted as a
`decode` oracle; `AnalyticsV1` models the string-based analytics service
(`uploadBatch`/`processBatch`/`convertEvent`). Byte strings are lists of
bytes; the store call is modelled by returning the list of records passed to
it, and the warning message handed to `createAck` is returned as ghost output.
-/

namespace IngestV2

/-- Network metadata attached to an analytics event (proto `NetworkInfo`). -/
structure NetworkInfo where
  quality : Nat
  downloadMbps : Option Nat
  uploadMbps : Option Nat
  connectionType : Option String
  signalStrengthDbm : Option Int
deriving DecidableEq

/-- Proto `Event` of the bytes-based analytics ingest: the id and the CBOR
payload are byte strings. -/
structure Event where
  eventId : List Nat
  timestampMs : Nat
  type : Nat
  schemaVersion : Nat
  payload : List Nat
  network : Option NetworkInfo
deriving DecidableEq

/-- Proto `Batch`: id bytes, device fingerprint and the events. -/
structure Batch where
  batchId : List Nat
  deviceFingerprint : Nat
  events : List Event
deriving DecidableEq

/-- Server-side `Policy`. -/
structure Policy where
  minQuality : Nat
  maxBatchSize : Nat
  maxQueueAgeHours : Nat
  uploadIntervalSeconds : Nat
deriving DecidableEq

/-- The `defaultPolicy` field: `ConnectionQuality.FAIR` is 3. -/
def defaultPolicy : Policy :=
  { minQuality := 3, maxBatchSize := 100, maxQueueAgeHours := 24,
    uploadIntervalSeconds := 300 }

/-- The `Ack` produced by `createAck`. -/
structure Ack where
  batchId : List Nat
  accepted : Bool
  rejectedEventIds : List (List Nat)
  throttleMs : Nat
  policy : Policy
deriving DecidableEq

/-- One lowercase hex digit. -/
def hexDigit (n : Nat) : Char :=
  if n < 10 then Char.ofNat (48 + n) else Char.ofNat (87 + n)

/-- Two hex digits of one byte. -/
def byteHex (b : Nat) : String :=
  String.mk [hexDigit (b / 16 % 16), hexDigit (b % 16)]

/-- The `bytesToHex` helper: `Buffer.from(bytes).toString("hex")`. -/
def bytesToHex (bytes : List Nat) : String :=
  String.join (bytes.map byteHex)

/-- Return shape of `processEvent`, before the batch fields are attached. -/
structure ProcessedEvent (α : Type) where
  eventId : String
  timestampMs : Nat
  type : Nat
  schemaVersion : Nat
  payload : α
  network : Option NetworkInfo
deriving DecidableEq

/-- Record handed to `store.storeEvents`: the processed event spread together
with `deviceFingerprint` and the hex `batchId`. -/
structure StoredEvent (α : Type) where
  eventId : String
  deviceFingerprint : Nat
  batchId : String
  timestampMs : Nat
  type : Nat
  schemaVersion : Nat
  payload : α
  network : Option NetworkInfo
deriving DecidableEq

/-- The `processEvent` body: reject unless the event id is exactly 16 bytes,
the payload is nonempty and the CBOR decode (the `decode` oracle, `none`
standing for a thrown decode error) succeeds. -/
def processEvent {α : Type} (decode : List Nat → Option α) (event : Event) :
    Option (ProcessedEvent α) :=
  if event.eventId.length ≠ 16 then none
  else if event.payload = [] then none
  else
    match decode event.payload with
    | none => none
    | some p =>
        some { eventId := bytesToHex event.eventId,
               timestampMs := event.timestampMs, type := event.type,
               schemaVersion := event.schemaVersion, payload := p,
               network := event.network }

/-- The push into `eventsToStore`: spread of the processed event plus the
batch fields. -/
def attachBatch {α : Type} (dfp : Nat) (bidHex : String)
    (p : ProcessedEvent α) : StoredEvent α :=
  { eventId := p.eventId, deviceFingerprint := dfp, batchId := bidHex,
    timestampMs := p.timestampMs, type := p.type,
    schemaVersion := p.schemaVersion, payload := p.payload,
    network := p.network }

/-- The `for (const event of batch.events)` loop of `processBatch`: the
`rejectedEventIds` and `eventsToStore` lists, in iteration order. -/
def ingestLoop {α : Type} (decode : List Nat → Option α) (dfp : Nat)
    (bidHex : String) : List Event → List (List Nat) × List (StoredEvent α)
  | [] => ([], [])
  | e :: rest =>
      match processEvent decode e with
      | some p =>
          let r := ingestLoop decode dfp bidHex rest
          (r.1, attachBatch dfp bidHex p :: r.2)
      | none =>
          let r := ingestLoop decode dfp bidHex rest
          (e.eventId :: r.1, r.2)

/-- The template literal of the batch-size rejection. -/
def sizeExceededMsg (n : Nat) : String :=
  "Batch size exceeds maximum (" ++ toString n ++ " > " ++
    toString defaultPolicy.maxBatchSize ++ ")"

/-- The `processBatch` body (`ingest` delegates to it): the ack, the records
handed to the store (empty when `storeEvents` is not called), and the warning
message passed to `createAck`. -/
def processBatch {α : Type} (decode : List Nat → Option α) (batch : Batch) :
    Ack × List (StoredEvent α) × Option String :=
  if batch.batchId = [] then
    ({ batchId := [], accepted := false, rejectedEventIds := [],
       throttleMs := 0, policy := defaultPolicy }, [], some "Missing batch_id")
  else if batch.events = [] then
    ({ batchId := batch.batchId, accepted := false, rejectedEventIds := [],
       throttleMs := 0, policy := defaultPolicy }, [],
     some "Empty batch (no events)")
  else if defaultPolicy.maxBatchSize < batch.events.length then
    ({ batchId := batch.batchId, accepted := false, rejectedEventIds := [],
       throttleMs := 0, policy := defaultPolicy }, [],
     some (sizeExceededMsg batch.events.length))
  else
    let r := ingestLoop decode batch.deviceFingerprint
      (bytesToHex batch.batchId) batch.events
    ({ batchId := batch.batchId, accepted := r.1.isEmpty,
       rejectedEventIds := r.1, throttleMs := 0, policy := defaultPolicy },
     r.2,
     if r.1.isEmpty then none else some "Some events failed to process")

end IngestV2

namespace AnalyticsV1

/-- The `UploadPolicy` record. -/
structure UploadPolicy where
  maxBatchSize : Nat
  syncIntervalSeconds : Nat
  retryDelaysSeconds : List Nat
deriving DecidableEq

/-- The `defaultPolicy` field of the string-based service. -/
def defaultPolicy : UploadPolicy :=
  { maxBatchSize := 100, syncIntervalSeconds := 300,
    retryDelaysSeconds := [1, 2, 4, 8, 15] }

/-- JS `s || d` on an optional string: missing or empty falls back to `d`. -/
def strOr (o : Option String) (d : String) : String :=
  match o with
  | some s => if s = "" then d else s
  | none => d

/-- Incoming optional playback payload fields. -/
structure PlaybackIn where
  campaignId : Option String
  mediaId : Option String
  durationMs : Option Nat
  completed : Option Bool
deriving DecidableEq

/-- Incoming optional error payload fields. -/
structure ErrorIn where
  errorType : Option String
  message : Option String
  stackTrace : Option String
  component : Option String
  isFatal : Option Bool
deriving DecidableEq

/-- Incoming health payload fields (passed through without defaults). -/
structure HealthIn where
  batteryLevel : Option Nat
  storageFreeBytes : Option Nat
  cpuUsage : Option Nat
  memoryUsage : Option Nat
  connectionQuality : Nat
deriving DecidableEq

/-- Proto `AnalyticsEvent`: string id, numeric timestamp (0 for a missing
falsy value), category tag and the three optional oneof payloads. -/
structure AEvent where
  eventId : String
  timestampMs : Nat
  category : Nat
  playback : Option PlaybackIn
  error : Option ErrorIn
  health : Option HealthIn
deriving DecidableEq

/-- Converted `PlaybackRecord`. -/
structure PlaybackRecord where
  campaignId : String
  mediaId : String
  durationMs : Nat
  completed : Bool
deriving DecidableEq

/-- Converted `ErrorRecord`. -/
structure ErrorRecord where
  errorType : String
  message : String
  stackTrace : Option String
  component : String
  isFatal : Bool
deriving DecidableEq

/-- Converted `HealthRecord`. -/
structure HealthRecord where
  batteryLevel : Option Nat
  storageFreeBytes : Option Nat
  cpuUsage : Option Nat
  memoryUsage : Option Nat
  connectionQuality : String
deriving DecidableEq

/-- Union of the three converted payload shapes. -/
inductive APayload where
  | playback (p : PlaybackRecord)
  | error (e : ErrorRecord)
  | health (h : HealthRecord)
deriving DecidableEq

/-- Return shape of `convertEvent` and element of `eventsToStore`. -/
structure ConvertedEvent where
  eventId : String
  timestampMs : Nat
  category : String
  payload : APayload
deriving DecidableEq

/-- Proto `AnalyticsBatch`. -/
structure ABatch where
  deviceId : String
  batchId : String
  events : List AEvent
deriving DecidableEq

/-- The `BatchAck` record. -/
structure BatchAck where
  accepted : Bool
  batchId : String
  failedEventIds : List String
  rejectionReason : Option String
  policy : UploadPolicy
deriving DecidableEq

/-- The `mapConnectionQuality` lookup table with the `UNKNOWN` fallback. -/
def mapConnectionQuality (quality : Nat) : String :=
  if quality = 0 then "UNSPECIFIED"
  else if quality = 1 then "EXCELLENT"
  else if quality = 2 then "GOOD"
  else if quality = 3 then "FAIR"
  else if quality = 4 then "POOR"
  else if quality = 5 then "OFFLINE"
  else "UNKNOWN"

/-- Playback payload conversion with the JS falsy defaults. -/
def convertPlayback (p : PlaybackIn) : PlaybackRecord :=
  { campaignId := p.campaignId.getD "", mediaId := p.mediaId.getD "",
    durationMs := p.durationMs.getD 0, completed := p.completed.getD false }

/-- Error payload conversion with the JS falsy defaults. -/
def convertError (err : ErrorIn) : ErrorRecord :=
  { errorType := strOr err.errorType "UNKNOWN",
    message := err.message.getD "", stackTrace := err.stackTrace,
    component := strOr err.component "unknown",
    isFatal := err.isFatal.getD false }

/-- Health payload conversion: fields pass through, quality is mapped. -/
def convertHealth (h : HealthIn) : HealthRecord :=
  { batteryLevel := h.batteryLevel, storageFreeBytes := h.storageFreeBytes,
    cpuUsage := h.cpuUsage, memoryUsage := h.memoryUsage,
    connectionQuality := mapConnectionQuality h.connectionQuality }

/-- The `convertEvent` body: `null` when the event id is falsy or when no
payload matches the category switch; `timestampMs || Date.now()` is modelled
with the `now` parameter. -/
def convertEvent (now : Nat) (event : AEvent) : Option ConvertedEvent :=
  if event.eventId = "" then none
  else
    let ts := if event.timestampMs = 0 then now else event.timestampMs
    if event.category = 1 then
      match event.playback with
      | some p => some { eventId := event.eventId, timestampMs := ts, category := "PLAYBACK", payload := .playback (convertPlayback p) }
      | none => none
    else if event.category = 2 then
      match event.error with
      | some err => some { eventId := event.eventId, timestampMs := ts, category := "ERROR", payload := .error (convertError err) }
      | none => none
    else if event.category = 3 then
      match event.health with
      | some h => some { eventId := event.eventId, timestampMs := ts, category := "HEALTH", payload := .health (convertHealth h) }
      | none => none
    else none

/-- The `for (const event of batch.events)` loop of the string-based
`processBatch`: `failedEventIds` (with the `unknown` fallback for a falsy id)
and `eventsToStore`, in iteration order. -/
def convertLoop (now : Nat) : List AEvent → List String × List ConvertedEvent
  | [] => ([], [])
  | e :: rest =>
      match convertEvent now e with
      | some c =>
          let r := convertLoop now rest
          (r.1, c :: r.2)
      | none =>
          let r := convertLoop now rest
          ((if e.eventId = "" then "unknown" else e.eventId) :: r.1, r.2)

/-- The template literal of the batch-size rejection. -/
def sizeExceededMsgV1 (n : Nat) : String :=
  "Batch size exceeds maximum (" ++ toString n ++ " > " ++
    toString defaultPolicy.maxBatchSize ++ ")"

/-- The string-based `processBatch` (`uploadBatch` delegates to it): the ack
and the records handed to `store.storeEvents` (empty when it is not
called). -/
def processBatch (now : Nat) (batch : ABatch) :
    BatchAck × List ConvertedEvent :=
  if batch.deviceId = "" then
    ({ accepted := false, batchId := batch.batchId, failedEventIds := [],
       rejectionReason := some "Missing device_id",
       policy := defaultPolicy }, [])
  else if batch.batchId = "" then
    ({ accepted := false, batchId := "", failedEventIds := [],
       rejectionReason := some "Missing batch_id",
       policy := defaultPolicy }, [])
  else if batch.events = [] then
    ({ accepted := false, batchId := batch.batchId, failedEventIds := [],
       rejectionReason := some "Empty batch (no events)",
       policy := defaultPolicy }, [])
  else if defaultPolicy.maxBatchSize < batch.events.length then
    ({ accepted := false, batchId := batch.batchId, failedEventIds := [],
       rejectionReason := some (sizeExceededMsgV1 batch.events.length),
       policy := defaultPolicy }, [])
  else
    let r := convertLoop now batch.events
    ({ accepted := r.1.isEmpty, batchId := batch.batchId,
       failedEventIds := r.1,
       rejectionReason :=
         if r.1.isEmpty then none else some "Some events failed to process",
       policy := defaultPolicy }, r.2)

end AnalyticsV1

namespace IngestV2

/-- The rejected-id list that the ingest loop produces, in closed form. -/
def rejectedOf {α : Type} (decode : List Nat → Option α) (es : List Event) :
    List (List Nat) :=
  (es.filter (fun e => (processEvent decode e).isNone)).map (fun e => e.eventId)

/-- The stored-record list that the ingest loop produces, in closed form. -/
def storedOf {α : Type} (decode : List Nat → Option α) (dfp : Nat)
    (bidHex : String) (es : List Event) : List (StoredEvent α) :=
  es.filterMap (fun e => (processEvent decode e).map (attachBatch dfp bidHex))

/-- The ack built in the non-short-circuit branch of `processBatch`. -/
def runAck (rej : List (List Nat)) (bid : List Nat) : Ack :=
  { batchId := bid, accepted := rej.isEmpty, rejectedEventIds := rej,
    throttleMs := 0, policy := defaultPolicy }

theorem processEvent_none_of_badId {α : Type} (decode : List Nat → Option α)
    (e : Event) (h : e.eventId.length ≠ 16) : processEvent decode e = none := by
  unfold processEvent
  rw [if_pos h]

theorem processEvent_ground {α : Type} (decode : List Nat → Option α)
    (e : Event) (hid : e.eventId.length = 16)
    (h : processEvent decode e = none) :
    e.payload = [] ∨ decode e.payload = none := by
  unfold processEvent at h
  rw [if_neg (by simp [hid])] at h
  by_cases hp : e.payload = []
  · exact Or.inl hp
  · rw [if_neg hp] at h
    rcases hd : decode e.payload with _ | p
    · exact Or.inr rfl
    · rw [hd] at h
      exact absurd h (by simp)

theorem processEvent_isSome_of_valid {α : Type} (decode : List Nat → Option α)
    (e : Event) (hid : e.eventId.length = 16) (hp : e.payload ≠ [])
    (hd : (decode e.payload).isSome) : (processEvent decode e).isSome := by
  unfold processEvent
  rw [if_neg (by simp [hid]), if_neg hp]
  rcases h : decode e.payload with _ | p
  · rw [h] at hd
    exact absurd hd (by simp)
  · simp

theorem ingestLoop_eq {α : Type} (decode : List Nat → Option α) (dfp : Nat)
    (bidHex : String) (es : List Event) :
    ingestLoop decode dfp bidHex es =
      (rejectedOf decode es, storedOf decode dfp bidHex es) := by
  induction es with
  | nil => rfl
  | cons e rest ih =>
      rcases h : processEvent decode e with _ | p
      · simp [ingestLoop, h, ih, rejectedOf, storedOf]
      · simp [ingestLoop, h, ih, rejectedOf, storedOf]

theorem rejectedOf_eq_nil_iff {α : Type} (decode : List Nat → Option α)
    (es : List Event) :
    rejectedOf decode es = [] ↔ ∀ e ∈ es, (processEvent decode e).isSome := by
  simp [rejectedOf, Option.isNone_iff_eq_none, Option.isSome_iff_ne_none]

theorem sizeExceededMsg_head (n : Nat) :
    (sizeExceededMsg n).data.head? = some 'B' := rfl

theorem sizeExceededMsg_ne (n : Nat) :
    sizeExceededMsg n ≠ "Some events failed to process" := by
  intro h
  have h2 := sizeExceededMsg_head n
  rw [h] at h2
  exact absurd h2 (by decide)

theorem processBatch_oversize {α : Type} (decode : List Nat → Option α)
    (b : Batch) (hlen : defaultPolicy.maxBatchSize < b.events.length) :
    (processBatch decode b).1.accepted = false ∧
    (processBatch decode b).2.1 = [] ∧
    (b.batchId ≠ [] →
      (processBatch decode b).2.2 = some (sizeExceededMsg b.events.length)) := by
  by_cases h1 : b.batchId = []
  · unfold processBatch
    rw [if_pos h1]
    exact ⟨rfl, rfl, fun hc => absurd h1 hc⟩
  · have h2 : b.events ≠ [] := by
      intro h
      rw [h] at hlen
      exact absurd hlen (by decide)
    unfold processBatch
    rw [if_neg h1, if_neg h2, if_pos hlen]
    exact ⟨rfl, rfl, fun _ => rfl⟩

theorem processBatch_eq_run {α : Type} (decode : List Nat → Option α)
    (b : Batch) (hbid : b.batchId ≠ []) (hev : b.events ≠ [])
    (hlen : b.events.length ≤ defaultPolicy.maxBatchSize) :
    processBatch decode b =
      (runAck (rejectedOf decode b.events) b.batchId,
       storedOf decode b.deviceFingerprint (bytesToHex b.batchId) b.events,
       if (rejectedOf decode b.events).isEmpty then none
       else some "Some events failed to process") := by
  unfold processBatch
  rw [if_neg hbid, if_neg hev, if_neg (not_lt.mpr hlen), ingestLoop_eq]
  rfl

end IngestV2

namespace IngestV2

/-- C9: validation of the bytes-based Ingest. A batch with more events than
`defaultPolicy.maxBatchSize` (100) is rejected outright: the ack has
`accepted = false`, nothing is stored, and (when a batch id is present so
that the size check is reached) the warning is the size message. A single
event whose id is not exactly 16 bytes is rejected by `processEvent`. A
batch that passes batch-level validation, stays within the size limit and
whose events all carry 16-byte ids is not rejected on either ground: its
warning is never the size message, every rejected event id belongs to an
event whose payload is empty or fails to decode, and when all payloads are
nonempty and decodable the batch is accepted with no rejected ids. -/
theorem claim_C9_batch_and_event_validation {α : Type}
    (decode : List Nat → Option α) (batch : Batch) (e : Event) :
    (defaultPolicy.maxBatchSize < batch.events.length →
      (processBatch decode batch).1.accepted = false ∧
      (processBatch decode batch).2.1 = [] ∧
      (batch.batchId ≠ [] →
        (processBatch decode batch).2.2 =
          some (sizeExceededMsg batch.events.length))) ∧
    (e.eventId.length ≠ 16 → processEvent decode e = none) ∧
    (batch.batchId ≠ [] → batch.events ≠ [] →
      batch.events.length ≤ defaultPolicy.maxBatchSize →
      (∀ ev ∈ batch.events, ev.eventId.length = 16) →
      ((processBatch decode batch).2.2 = none ∨
        (processBatch decode batch).2.2 =
          some "Some events failed to process") ∧
      (∀ n, (processBatch decode batch).2.2 ≠ some (sizeExceededMsg n)) ∧
      (∀ id ∈ (processBatch decode batch).1.rejectedEventIds,
        ∃ ev ∈ batch.events, ev.eventId = id ∧
          (ev.payload = [] ∨ decode ev.payload = none)) ∧
      ((∀ ev ∈ batch.events, ev.payload ≠ [] ∧ (decode ev.payload).isSome) →
        (processBatch decode batch).1.accepted = true ∧
        (processBatch decode batch).1.rejectedEventIds = [])) := by
  refine ⟨fun hlen => processBatch_oversize decode batch hlen,
    fun h => processEvent_none_of_badId decode e h, ?_⟩
  intro hbid hev hlen hids
  rw [processBatch_eq_run decode batch hbid hev hlen]
  refine ⟨?_, ?_, ?_, ?_⟩
  · by_cases hiso : (rejectedOf decode batch.events).isEmpty = true
    · left
      simp [hiso]
    · right
      simp [hiso]
  · intro n hn
    by_cases hiso : (rejectedOf decode batch.events).isEmpty = true
    · simp [hiso] at hn
    · simp [hiso] at hn
      exact sizeExceededMsg_ne n hn.symm
  · intro id hid
    have hid' : id ∈ rejectedOf decode batch.events := hid
    rw [rejectedOf] at hid'
    obtain ⟨ev, hevmem, heq⟩ := List.mem_map.mp hid'
    have h2 := List.mem_filter.mp hevmem
    refine ⟨ev, h2.1, heq, ?_⟩
    exact processEvent_ground decode ev (hids ev h2.1)
      (Option.isNone_iff_eq_none.mp h2.2)
  · intro hvalid
    have hnil : rejectedOf decode batch.events = [] :=
      (rejectedOf_eq_nil_iff decode batch.events).mpr
        (fun ev hm => processEvent_isSome_of_valid decode ev (hids ev hm)
          (hvalid ev hm).1 (hvalid ev hm).2)
    constructor
    · simp [runAck, hnil]
    · exact hnil

/-- Decode oracle for the witnesses: fails exactly on the empty payload. -/
def decOracle : List Nat → Option (List Nat) :=
  fun l => if l = [] then none else some l

/-- Fully valid witness event: 16-byte id and nonempty payload. -/
def wEvent : Event :=
  { eventId := List.replicate 16 0, timestampMs := 1, type := 1,
    schemaVersion := 1, payload := [1], network := none }

/-- Witness event with a 1-byte id. -/
def wBadEvent : Event :=
  { eventId := [0], timestampMs := 1, type := 1, schemaVersion := 1,
    payload := [1], network := none }

/-- Witness event with a 16-byte id but an empty payload. -/
def wNoPayloadEvent : Event :=
  { eventId := List.replicate 16 1, timestampMs := 1, type := 1,
    schemaVersion := 1, payload := [], network := none }

/-- Small fully valid witness batch. -/
def wBatch : Batch :=
  { batchId := [171], deviceFingerprint := 7, events := [wEvent] }

/-- Witness batch with 101 copies of the valid event. -/
def wBigBatch : Batch :=
  { batchId := [171], deviceFingerprint := 7,
    events := List.replicate 101 wEvent }

/-- Witness for C9 at concrete inputs: the oversized batch is rejected, the
1-byte-id event is dropped by processEvent, and the small valid batch is
accepted with no rejected ids. -/
theorem claim_C9_batch_and_event_validation_witness :
    (processBatch decOracle wBigBatch).1.accepted = false ∧
    processEvent decOracle wBadEvent = none ∧
    (processBatch decOracle wBatch).1.accepted = true ∧
    (processBatch decOracle wBatch).1.rejectedEventIds = [] :=
  ⟨((claim_C9_batch_and_event_validation decOracle wBigBatch wBadEvent).1
      (by decide)).1,
   (claim_C9_batch_and_event_validation decOracle wBigBatch wBadEvent).2.1
      (by decide),
   (((claim_C9_batch_and_event_validation decOracle wBatch wBadEvent).2.2
      (by decide) (by decide) (by decide) (by decide)).2.2.2 (by decide)).1,
   (((claim_C9_batch_and_event_validation decOracle wBatch wBadEvent).2.2
      (by decide) (by decide) (by decide) (by decide)).2.2.2 (by decide)).2⟩

end IngestV2

namespace AnalyticsV1

/-- The failed-id list that the convert loop produces, in closed form. -/
def failedOf (now : Nat) (es : List AEvent) : List String :=
  (es.filter (fun e => (convertEvent now e).isNone)).map
    (fun e => if e.eventId = "" then "unknown" else e.eventId)

/-- The stored-record list that the convert loop produces, in closed form. -/
def storedOfV1 (now : Nat) (es : List AEvent) : List ConvertedEvent :=
  es.filterMap (convertEvent now)

/-- The ack built in the non-short-circuit branch of the string-based
`processBatch`. -/
def runAckV1 (failed : List String) (bid : String) : BatchAck :=
  { accepted := failed.isEmpty, batchId := bid, failedEventIds := failed,
    rejectionReason :=
      if failed.isEmpty then none else some "Some events failed to process",
    policy := defaultPolicy }

theorem convertLoop_eq (now : Nat) (es : List AEvent) :
    convertLoop now es = (failedOf now es, storedOfV1 now es) := by
  induction es with
  | nil => rfl
  | cons e rest ih =>
      rcases h : convertEvent now e with _ | c
      · simp [convertLoop, h, ih, failedOf, storedOfV1]
      · simp [convertLoop, h, ih, failedOf, storedOfV1]

theorem failedOf_eq_nil_iff (now : Nat) (es : List AEvent) :
    failedOf now es = [] ↔ ∀ e ∈ es, (convertEvent now e).isSome := by
  simp [failedOf, Option.isNone_iff_eq_none, Option.isSome_iff_ne_none]

theorem processBatchV1_eq_run (now : Nat) (b : ABatch) (hdev : b.deviceId ≠ "")
    (hbid : b.batchId ≠ "") (hev : b.events ≠ [])
    (hlen : b.events.length ≤ defaultPolicy.maxBatchSize) :
    processBatch now b =
      (runAckV1 (failedOf now b.events) b.batchId, storedOfV1 now b.events) := by
  unfold processBatch
  rw [if_neg hdev, if_neg hbid, if_neg hev, if_neg (not_lt.mpr hlen),
    convertLoop_eq]
  rfl

/-- Playback payload used by the C10 counterexample events. -/
def cexPlayback : PlaybackIn :=
  { campaignId := some "c", mediaId := some "m", durationMs := some 7,
    completed := some true }

/-- Valid counterexample event. -/
def cexGoodEvent : AEvent :=
  { eventId := "e1", timestampMs := 5, category := 1,
    playback := some cexPlayback, error := none, health := none }

/-- Counterexample event with an empty (falsy) event id. -/
def cexNoIdEvent : AEvent :=
  { eventId := "", timestampMs := 5, category := 1,
    playback := some cexPlayback, error := none, health := none }

/-- Counterexample batch: passes batch-level validation, one valid event and
one event with an empty id. -/
def cexBatch : ABatch :=
  { deviceId := "d", batchId := "b", events := [cexGoodEvent, cexNoIdEvent] }

/-- C10 counterexample: in the string-based service, the batch with one valid
event and one event whose id is empty is not accepted, and the ack lists
`"unknown"` rather than the failing event id (the empty string), so the ack
does not list exactly the ids of the failing events; the valid event is still
stored. -/
theorem claim_C10_counterexample :
    (processBatch 0 cexBatch).1.accepted = false ∧
    (processBatch 0 cexBatch).1.failedEventIds = ["unknown"] ∧
    (cexBatch.events.filter (fun e => (convertEvent 0 e).isNone)).map
      (fun e => e.eventId) = [""] ∧
    (processBatch 0 cexBatch).1.failedEventIds ≠
      (cexBatch.events.filter (fun e => (convertEvent 0 e).isNone)).map
        (fun e => e.eventId) ∧
    (processBatch 0 cexBatch).2 =
      [⟨"e1", 5, "PLAYBACK", .playback ⟨"c", "m", 7, true⟩⟩] := by
  decide

/-- C10 amended: for a batch that passes batch-level validation, both
services store exactly the converted valid events and accept the batch iff
every event converts. The bytes-based ingest lists exactly the eventId fields
of the failing events, in order; the string-based service lists the failing
events in order but substitutes `"unknown"` for an empty event id. -/
theorem claim_C10_failure_reporting_amended {α : Type}
    (decode : List Nat → Option α) (b : IngestV2.Batch) (now : Nat)
    (a : ABatch) :
    (b.batchId ≠ [] → b.events ≠ [] →
      b.events.length ≤ IngestV2.defaultPolicy.maxBatchSize →
      ((IngestV2.processBatch decode b).1.rejectedEventIds =
        (b.events.filter
          (fun e => (IngestV2.processEvent decode e).isNone)).map
            (fun e => e.eventId) ∧
       (IngestV2.processBatch decode b).2.1 =
        b.events.filterMap (fun e => (IngestV2.processEvent decode e).map
          (IngestV2.attachBatch b.deviceFingerprint
            (IngestV2.bytesToHex b.batchId))) ∧
       ((IngestV2.processBatch decode b).1.accepted = true ↔
        ∀ e ∈ b.events, (IngestV2.processEvent decode e).isSome))) ∧
    (a.deviceId ≠ "" → a.batchId ≠ "" → a.events ≠ [] →
      a.events.length ≤ defaultPolicy.maxBatchSize →
      ((processBatch now a).1.failedEventIds =
        (a.events.filter (fun e => (convertEvent now e).isNone)).map
          (fun e => if e.eventId = "" then "unknown" else e.eventId) ∧
       (processBatch now a).2 = a.events.filterMap (convertEvent now) ∧
       ((processBatch now a).1.accepted = true ↔
        ∀ e ∈ a.events, (convertEvent now e).isSome))) := by
  constructor
  · intro hbid hev hlen
    rw [IngestV2.processBatch_eq_run decode b hbid hev hlen]
    refine ⟨rfl, rfl, ?_⟩
    show (IngestV2.rejectedOf decode b.events).isEmpty = true ↔ _
    rw [List.isEmpty_iff]
    exact IngestV2.rejectedOf_eq_nil_iff decode b.events
  · intro hdev hbid hev hlen
    rw [processBatchV1_eq_run now a hdev hbid hev hlen]
    refine ⟨rfl, rfl, ?_⟩
    show (failedOf now a.events).isEmpty = true ↔ _
    rw [List.isEmpty_iff]
    exact failedOf_eq_nil_iff now a.events

/-- Mixed witness batch for the bytes-based side: one valid event and one
event with an empty payload. -/
def wMixedBatch : IngestV2.Batch :=
  { batchId := [171], deviceFingerprint := 7,
    events := [IngestV2.wEvent, IngestV2.wNoPayloadEvent] }

/-- Witness for the amended C10 at concrete inputs. -/
theorem claim_C10_failure_reporting_amended_witness :
    (IngestV2.processBatch IngestV2.decOracle wMixedBatch).1.rejectedEventIds =
      (wMixedBatch.events.filter
        (fun e => (IngestV2.processEvent IngestV2.decOracle e).isNone)).map
          (fun e => e.eventId) ∧
    ((IngestV2.processBatch IngestV2.decOracle wMixedBatch).1.accepted = true ↔
      ∀ e ∈ wMixedBatch.events,
        (IngestV2.processEvent IngestV2.decOracle e).isSome) ∧
    (processBatch 0 cexBatch).1.failedEventIds =
      (cexBatch.events.filter (fun e => (convertEvent 0 e).isNone)).map
        (fun e => if e.eventId = "" then "unknown" else e.eventId) ∧
    (processBatch 0 cexBatch).2 = cexBatch.events.filterMap (convertEvent 0) :=
  ⟨((claim_C10_failure_reporting_amended IngestV2.decOracle wMixedBatch 0
      cexBatch).1 (by decide) (by decide) (by decide)).1,
   ((claim_C10_failure_reporting_amended IngestV2.decOracle wMixedBatch 0
      cexBatch).1 (by decide) (by decide) (by decide)).2.2,
   ((claim_C10_failure_reporting_amended IngestV2.decOracle wMixedBatch 0
      cexBatch).2 (by decide) (by decide) (by decide) (by decide)).1,
   ((claim_C10_failure_reporting_amended IngestV2.decOracle wMixedBatch 0
      cexBatch).2 (by decide) (by decide) (by decide) (by decide)).2.1⟩

end AnalyticsV1

namespace CmdHub

/-- Witness for the amended C7 at a concrete input: the frame the broadcast
appends for the attached device `"a"` carries the input package, and the
fleet rotate builder produces the same frame for two distinct devices. -/
theorem claim_C7_shared_correlation_ids_amended_witness :
    (("a", ({ commandId := "cid-1", requiresAck := true } : CommandPackage)) ∈
        (subscribeCommands "a" initState).sent ∨
      (("a", ({ commandId := "cid-1", requiresAck := true } :
          CommandPackage))).2 =
        ({ commandId := "cid-1", requiresAck := true } : CommandPackage)) ∧
    FleetSvc.rotateFleetBuilder "f" 5 "a" =
      FleetSvc.rotateFleetBuilder "f" 5 "b" :=
  ⟨(claim_C7_shared_correlation_ids_amended
      { commandId := "cid-1", requiresAck := true } 100 0
      (subscribeCommands "a" initState)).1
      ("a", { commandId := "cid-1", requiresAck := true }) (by decide),
   (claim_C7_shared_correlation_ids_amended
      { commandId := "cid-1", requiresAck := true } 100 0
      (subscribeCommands "a" initState)).2 "f" 5 "a" "b"⟩

end CmdHub
